import Mathlib

/-
  Verification of the WhatsApp retail-bot webhook orchestrator.

  Shallow embedding of the dialogue orchestrator (main.py), the language-model
  gateway post-processing (gemini.py), the chat store dedup helper (chat_db.py)
  and the term-scored catalog search (catalog_db.py).  Strings are modelled as
  Lean strings / lists of characters; Python dicts as association lists; machine
  integers as Int (Python ints are unbounded); the rate-limit retry hint as a
  rational number (the parsed decimal literal).  External collaborators (the
  generative model, the SQL engine for row data, the messaging transport) enter
  as explicit oracle parameters, so every turn is a pure function of its inputs.
-/

set_option maxHeartbeats 1000000

/-! ### Python string primitives -/

/-- Whitespace set stripped by Python `str.strip()` (ASCII portion; the exotic
Unicode space characters do not occur in any string this system manipulates). -/
def isPySpace (c : Char) : Bool :=
  c == ' ' || c == '\t' || c == '\n' || c == '\r' || c == Char.ofNat 11 || c == Char.ofNat 12

/-- Drop characters satisfying `p` from both ends of a list
(Python `str.strip(chars)`). -/
def stripWith (p : Char → Bool) (l : List Char) : List Char :=
  ((l.dropWhile p).reverse.dropWhile p).reverse

def stripL (l : List Char) : List Char := stripWith isPySpace l

def stripStr (s : String) : String := ⟨stripL s.data⟩

/-- ASCII lowercasing, as applied by `str.lower()` to the character repertoire
this system handles (digits, ASCII letters, Arabic — Arabic has no case). -/
def asciiLower (c : Char) : Char :=
  if 65 ≤ c.toNat ∧ c.toNat ≤ 90 then Char.ofNat (c.toNat + 32) else c

def lowerL (l : List Char) : List Char := l.map asciiLower

def lowerStr (s : String) : String := ⟨lowerL s.data⟩

/-- Decimal value of a digit character accepted by Python `str.isdigit` /
`int()` in the scripts this bot sees: ASCII `0-9` and Arabic-Indic `٠-٩`. -/
def digitVal? (c : Char) : Option Nat :=
  if 48 ≤ c.toNat ∧ c.toNat ≤ 57 then some (c.toNat - 48)
  else if 1632 ≤ c.toNat ∧ c.toNat ≤ 1641 then some (c.toNat - 1632)
  else none

/-- Python `str.isdigit()`: nonempty and all characters decimal digits. -/
def pyIsDigitL (l : List Char) : Bool :=
  !l.isEmpty && l.all (fun c => (digitVal? c).isSome)

/-- Value of a digit string (`int(t)` for `t.isdigit()` strings). -/
def natOfDigits (l : List Char) : Nat :=
  l.foldl (fun a c => a * 10 + (digitVal? c).getD 0) 0

/-- Does `pre` start the list `l`?  (`str.startswith`). -/
def startsWithL : List Char → List Char → Bool
  | [], _ => true
  | _ :: _, [] => false
  | a :: as, b :: bs => a == b && startsWithL as bs

/-- Substring containment: Python `needle in haystack`. -/
def containsSub (needle : List Char) : List Char → Bool
  | [] => needle.isEmpty
  | c :: rest => startsWithL needle (c :: rest) || containsSub needle rest

/-- Word character for the `\b` boundary of Python's regex module, restricted
to the scripts this bot manipulates: ASCII alphanumerics, underscore, decimal
digits, and the Arabic letter blocks. -/
def isWordChar (c : Char) : Bool :=
  c.isAlphanum || c == '_' || (digitVal? c).isSome ||
  (1569 ≤ c.toNat && c.toNat ≤ 1610) || (1646 ≤ c.toNat && c.toNat ≤ 1747)

def isWordCharOpt : Option Char → Bool
  | none => false
  | some c => isWordChar c

/-- First character of `l` satisfying `p` that stands alone as a word:
`re.search` of a single-character class wrapped in word boundaries.  `prev` is
the character immediately before the scan position (none at string start). -/
def scanStandalone (p : Char → Bool) (prev : Option Char) : List Char → Option Char
  | [] => none
  | c :: rest =>
    if p c && !isWordCharOpt prev && !(match rest with | [] => false | d :: _ => isWordChar d) then
      some c
    else scanStandalone p (some c) rest

/-! ### The selection heuristics of main.py -/

/-- Ordinal-word table of `_selection_index`, in source (dict-insertion) order. -/
def selectionPairs (maxN : Int) : List (String × Int) :=
  [("الأول", 1), ("اول", 1), ("اول واحد", 1),
   ("التاني", 2), ("الثاني", 2), ("تاني", 2),
   ("الثالث", 3), ("تالت", 3), ("التالت", 3),
   ("الأخير", maxN), ("الاخير", maxN)]

/-- The mapping loop of `_selection_index`: first pair whose key occurs in `t`
and whose value is within `1..maxN`. -/
def mappingFirst (t : List Char) (maxN : Int) : List (String × Int) → Option Int
  | [] => none
  | (k, v) :: rest =>
    if containsSub k.data t && decide (1 ≤ v) && decide (v ≤ maxN) then some v
    else mappingFirst t maxN rest

/-- Embedding of `_selection_index` (main.py): interpret a human selection of
one element out of `maxN` presented candidates, as a 1-based index. -/
def selectionIndex (userText : String) (maxN : Int) : Option Int :=
  let t := lowerL (stripL userText.data)
  if t.isEmpty || decide (maxN ≤ 0) then none
  else if pyIsDigitL t && decide (1 ≤ (natOfDigits t : Int)) && decide ((natOfDigits t : Int) ≤ maxN) then
    some (natOfDigits t : Int)
  else match mappingFirst t maxN (selectionPairs maxN) with
  | some v => some v
  | none =>
    if containsSub "في النص".data t || containsSub "النص".data t || containsSub "middle".data t then
      if maxN == 2 then some 1
      else if decide (3 ≤ maxN) then some 2 else none
    else match scanStandalone (fun c => (digitVal? c).isSome) none t with
      | some c =>
        if decide (1 ≤ (((digitVal? c).getD 0 : Nat) : Int)) && decide ((((digitVal? c).getD 0 : Nat) : Int) ≤ maxN) then
          some (((digitVal? c).getD 0 : Nat) : Int)
        else none
      | none => none

/-- Marker-word table of `_looks_like_selection_reply`, in source order. -/
def selectionTerms : List String :=
  ["الأول", "الاول", "اول", "التاني", "الثاني", "تاني", "الثالث", "التالت",
   "تالت", "الأخير", "الاخير", "رقم", "#"]

/-- Embedding of `_looks_like_selection_reply` (main.py): should a model call
be spent on resolving this message as a fuzzy selection? -/
def looksLikeSelection (userText : String) : Bool :=
  let t := stripL userText.data
  if t.isEmpty then false
  else if t.length ≤ 20 then true
  else
    let tl := lowerL t
    if pyIsDigitL tl then true
    else if (scanStandalone (fun c => 49 ≤ c.toNat && c.toNat ≤ 57) none tl).isSome then true
    else selectionTerms.any (fun s => containsSub s.data tl)


/-! ### Python values and dict operations -/

/-- Universe of JSON-decoded Python values flowing through the conversation
state blob and the structured model outputs. -/
inductive PyVal where
  | pnull
  | pbool (b : Bool)
  | pint (n : Int)
  | pfloat (q : ℚ)
  | pstr (s : String)
  | plist (l : List PyVal)
  | pdict (d : List (String × PyVal))

abbrev PyDict := List (String × PyVal)

/-- Conversation state blob: a Python dict decoded from the JSONB column. -/
abbrev ConvState := PyDict

/-- First-occurrence key lookup (Python `d.get(k)` / `d[k]`). -/
def lookupKey : PyDict → String → Option PyVal
  | [], _ => none
  | (k', v) :: rest, k => if k' = k then some v else lookupKey rest k

/-- Key assignment `d[k] = v`: replace the first binding or append. -/
def setKey : PyDict → String → PyVal → PyDict
  | [], k, v => [(k, v)]
  | (k', v') :: rest, k, v => if k' = k then (k, v) :: rest else (k', v') :: setKey rest k v

/-- Key removal `d.pop(k, None)`. -/
def popKey : PyDict → String → PyDict
  | [], _ => []
  | (k', v') :: rest, k => if k' = k then popKey rest k else (k', v') :: popKey rest k

/-- Python `d.setdefault(k, v)`. -/
def setdefault (d : PyDict) (k : String) (v : PyVal) : PyDict :=
  if (lookupKey d k).isSome then d else d ++ [(k, v)]

/-- Python truthiness of a value. -/
def pyTruthy : PyVal → Bool
  | .pnull => false
  | .pbool b => b
  | .pint n => n != 0
  | .pfloat q => q != 0
  | .pstr s => s != ""
  | .plist l => !l.isEmpty
  | .pdict d => !d.isEmpty

/-- Truncation toward zero (Python `int()` applied to a float). -/
def ratTrunc (q : ℚ) : Int := if 0 ≤ q then ⌊q⌋ else -⌊-q⌋

/-- Representative rendering of Python `str(v)`.  Exact for the scalar values
the orchestrator ever stringifies; for containers a placeholder is enough
because the result is only tested for digit-ness or passed opaquely onward. -/
def pyStr : PyVal → String
  | .pnull => "None"
  | .pbool true => "True"
  | .pbool false => "False"
  | .pint n => toString n
  | .pfloat q => toString q.num ++ "." ++ toString q.den
  | .pstr s => s
  | .plist _ => "[...]"
  | .pdict _ => "\x7b...\x7d"

/-- Digit run with value, for `int(str)` parsing. -/
def parseDigits? (l : List Char) : Option Nat :=
  if !l.isEmpty && l.all (fun c => (digitVal? c).isSome) then some (natOfDigits l) else none

/-- Python `int(s)` on a string: optional sign around a digit run. -/
def parseIntStr? (s : String) : Option Int :=
  match stripL s.data with
  | [] => none
  | c :: rest =>
    if c == '-' then (parseDigits? rest).map (fun n => -(n : Int))
    else if c == '+' then (parseDigits? rest).map (fun n => (n : Int))
    else (parseDigits? (c :: rest)).map (fun n => (n : Int))

/-- Python `int(v)`; `none` means the conversion raises. -/
def pyToInt? : PyVal → Option Int
  | .pint n => some n
  | .pbool b => some (if b then 1 else 0)
  | .pfloat q => some (ratTrunc q)
  | .pstr s => parseIntStr? s
  | _ => none

/-! ### Language-model gateway (gemini.py) -/

def backquote : Char := Char.ofNat 96

def braceL : Char := Char.ofNat 123

def braceR : Char := Char.ofNat 125

def brackL : Char := Char.ofNat 91

def brackR : Char := Char.ofNat 93

def findIdxCh (c : Char) (l : List Char) : Option Nat := l.findIdx? (· == c)

def rfindIdxCh (c : Char) (l : List Char) : Option Nat :=
  match l.reverse.findIdx? (· == c) with
  | some i => some (l.length - 1 - i)
  | none => none

def minOpt : Option Nat → Option Nat → Option Nat
  | some a, some b => some (min a b)
  | some a, none => some a
  | none, some b => some b
  | none, none => none

/-- Python `max(end_obj, end_arr)` where a missing index is `-1`. -/
def maxOpt : Option Nat → Option Nat → Option Nat
  | some a, some b => some (max a b)
  | some a, none => some a
  | none, some b => some b
  | none, none => none

def dropThroughNewline : List Char → List Char
  | [] => []
  | c :: rest => if c == '\n' then rest else dropThroughNewline rest

/-- Embedding of `_extract_json` (gemini.py): best-effort extraction of the
outermost JSON object/array from the model's raw text. -/
def extractJsonL (text : List Char) : List Char :=
  let t := stripL text
  if t.isEmpty then []
  else
    let t :=
      if startsWithL [backquote, backquote, backquote] t then
        let t1 := stripL (stripWith (· == backquote) t)
        if t1.contains '\n' then stripL (dropThroughNewline t1) else t1
      else t
    match minOpt (findIdxCh braceL t) (findIdxCh brackL t) with
    | none => t
    | some s =>
      match maxOpt (rfindIdxCh braceR t) (rfindIdxCh brackR t) with
      | none => t.drop s
      | some e => if e ≤ s then t.drop s else stripL ((t.drop s).take (e + 1 - s))

def extractJson (s : String) : String := ⟨extractJsonL s.data⟩

/-- Shared post-processing of the three structured gateway calls: extract the
JSON, decode it (`jloads` stands for `json.loads`; `none` = raises), and fall
back to the empty dict on failure or on a non-dict decode. -/
def decodedDict (jloads : String → Option PyVal) (raw : String) : PyDict :=
  let extracted := extractJson raw
  if extracted = "" then []
  else match jloads extracted with
  | some (.pdict d) => d
  | _ => []

/-- Result dict of `parse_search_request` (gemini.py) for raw model output
`raw`: decoded dict with `intent`, `keywords`, `constraints` defaulted. -/
def parse_search_request_data (jloads : String → Option PyVal) (raw : String) : PyDict :=
  setdefault (setdefault (setdefault (decodedDict jloads raw)
    "intent" (.pstr "other")) "keywords" (.plist [])) "constraints" (.pdict [])

/-- Result dict of `rerank_candidates` (gemini.py): decoded dict with
`reply_text`, `presented_candidate_ids`, `needs_clarification`,
`clarifying_question` defaulted. -/
def rerank_candidates_data (jloads : String → Option PyVal) (raw : String) : PyDict :=
  setdefault (setdefault (setdefault (setdefault (decodedDict jloads raw)
    "reply_text" (.pstr "")) "presented_candidate_ids" (.plist []))
    "needs_clarification" (.pbool false)) "clarifying_question" (.pstr "")

/-- Result dict of `choose_from_presented` (gemini.py): decoded dict with
`selected_id` present (null when absent). -/
def choose_from_presented_data (jloads : String → Option PyVal) (raw : String) : PyDict :=
  setdefault (decodedDict jloads raw) "selected_id" .pnull

/-- Rate-limit signal (GeminiRateLimitError) with its optional retry hint. -/
structure RL where
  retryAfter : Option ℚ

/-- Apology text built by the webhook's GeminiRateLimitError handler
(main.py lines 539-544). -/
def rlApology (retryAfter : Option ℚ) : String :=
  match retryAfter with
  | some t =>
    if 0 < t then
      "معلش حصل ضغط على الخدمة—جرّب كمان " ++ toString (ratTrunc t + 1) ++ " ثانية."
    else "معلش حصل ضغط على الخدمة—جرّب بعد شوية."
  | none => "معلش حصل ضغط على الخدمة—جرّب بعد شوية."


/-! ### Term-scored catalog search (catalog_db.py / SQL semantics) -/

/-- SQL `LIKE` pattern matching over characters with Postgres's default
escape: a backslash makes the following pattern character match literally,
`%` matches any sequence (some suffix of the text matches the rest of the
pattern), `_` any single character, anything else itself.  A pattern ending
in a lone escape character is an error in Postgres and matches nothing here. -/
def likeMatch : List Char → List Char → Bool
  | [], s => s.isEmpty
  | c :: p, s =>
    if c == '\\' then
      match p, s with
      | e :: p', d :: s' => (e == d) && likeMatch p' s'
      | _, _ => false
    else if c == '%' then s.tails.any (likeMatch p)
    else
      match s with
      | [] => false
      | d :: s' => (c == '_' || c == d) && likeMatch p s'

/-- One-step unfolding of `likeMatch` on a cons pattern (the generated
equations case-split the pattern tail, so this direct form is proved once
from `eq_def`). -/
theorem likeMatch_cons (c : Char) (p s : List Char) :
    likeMatch (c :: p) s =
      if c == '\\' then
        match p, s with
        | e :: p', d :: s' => (e == d) && likeMatch p' s'
        | _, _ => false
      else if c == '%' then s.tails.any (likeMatch p)
      else match s with
        | [] => false
        | d :: s' => (c == '_' || c == d) && likeMatch p s' := by
  rw [likeMatch.eq_def]

/-- SQL `ILIKE`: case-insensitive LIKE (both sides lowercased). -/
def sqlILike (s : String) (pat : String) : Bool :=
  likeMatch (lowerL pat.data) (lowerL s.data)

/-- The `%term%` pattern built by `search_products_by_terms`. -/
def colPat (t : String) : String := "%" ++ t ++ "%"

/-- Keyword cleaning of `search_products_by_terms`: strip, drop terms shorter
than 2 characters, cap at 12. -/
def cleanTerms (terms : List String) : List String :=
  ((terms.map stripStr).filter (fun t => 2 ≤ t.length)).take 12

/-- Row of `public.products` restricted to the columns the term search reads.
`none` in a text column is SQL NULL. -/
structure ProductRow where
  id : Int
  nameAr : Option String
  nameEn : Option String
  slug : Option String
  sku : Option String
  productCode : Option String
  deleted : Bool
deriving Repr, DecidableEq

/-- The five searched columns, in the order of the source's `cols` list. -/
def searchCols (r : ProductRow) : List (Option String) :=
  [r.nameAr, r.nameEn, r.slug, r.sku, r.productCode]

/-- SQL `(col ILIKE '%t%')::int` with NULL propagation. -/
def termColScore (c : Option String) (t : String) : Option Int :=
  match c with
  | none => none
  | some s => some (if sqlILike s (colPat t) then 1 else 0)

/-- SQL addition: NULL-absorbing. -/
def addNull : Option Int → Option Int → Option Int
  | some a, some b => some (a + b)
  | _, _ => none

/-- Score contribution of one term across the five columns. -/
def scoreCols (t : String) : List (Option String) → Option Int
  | [] => some 0
  | c :: cs => addNull (termColScore c t) (scoreCols t cs)

/-- The `match_score` expression: sum over terms and columns of
`(col ILIKE '%term%')::int`; NULL as soon as any searched column is NULL. -/
def rowScore (terms : List String) (r : ProductRow) : Option Int :=
  match terms with
  | [] => some 0
  | t :: ts => addNull (scoreCols t (searchCols r)) (rowScore ts r)

/-- The WHERE disjunction: some (term, column) pair matches (SQL three-valued
OR keeps a row exactly when some operand is true). -/
def rowWhere (terms : List String) (r : ProductRow) : Bool :=
  terms.any (fun t => (searchCols r).any (fun c => termColScore c t == some 1))

/-- ORDER BY `match_score DESC, id DESC` as a total preorder on scored rows;
(Postgres sorts NULL scores first under DESC). -/
def scoreLE (a b : ProductRow × Option Int) : Bool :=
  match a.2, b.2 with
  | none, none => decide (b.1.id ≤ a.1.id)
  | none, some _ => true
  | some _, none => false
  | some x, some y => decide (y < x) || (x == y && decide (b.1.id ≤ a.1.id))

def searchOrder (a b : ProductRow × Option Int) : Prop := scoreLE a b = true

instance : DecidableRel searchOrder := fun a b => by
  unfold searchOrder; infer_instance

/-- Embedding of `search_products_by_terms` (catalog_db.py) over a table of
rows: clean the terms, keep non-deleted rows matched by the WHERE clause,
attach the score expression, sort by score then id descending, truncate. -/
def search_products_by_terms (table : List ProductRow) (terms : List String)
    (limit : Nat) : List (ProductRow × Option Int) :=
  let cleaned := cleanTerms terms
  if cleaned.isEmpty then []
  else
    let rows := table.filter (fun r => !r.deleted && rowWhere cleaned r)
    (List.insertionSort searchOrder (rows.map (fun r => (r, rowScore cleaned r)))).take limit

/-! ### Chat store and orchestrator state (chat_db.py / main.py) -/

/-- Candidate summary row returned by the product searches, restricted to the
fields the orchestrator reads (`c.get(...)`); `id` is optional because the
code guards every access with `c.get("id") is not None`. -/
structure Candidate where
  id : Option Int
  displayName : Option String
  consumerPrice : Option Int
  stockQuantity : Option Int
  slug : Option String
deriving Repr, DecidableEq

/-- Persisted chat message row (the columns the dedup/flow logic touches). -/
structure MsgRow where
  role : String
  direction : String
  text : String
  waMessageId : Option String
deriving Repr, DecidableEq

/-- Embedding of `wa_message_id_exists` (chat_db.py): best-effort dedup test
on the provider message id. -/
def waMessageIdExists (msgs : List MsgRow) (waId : Option String) : Bool :=
  let t := stripStr ((waId).getD "")
  if t == "" then false
  else msgs.any (fun m => m.waMessageId == some t)

/-- Result of a `get_product_context` call: raises, finds nothing, or finds a
full context (whose payload the control flow never inspects). -/
inductive CatalogRes where
  | err
  | notFound
  | found
deriving Repr, DecidableEq

/-- Oracle bundle standing for the external collaborators of one turn: the
four language-model calls (Except = GeminiRateLimitError) and the catalog
lookups (none = the caught DB exception). -/
structure TurnEnv where
  choose : Except RL PyDict
  parse : Except RL PyDict
  rerank : Except RL PyDict
  answerGrounded : Except RL String
  answerPlain : Except RL String
  searchByTerms : List String → Option (List Candidate)
  searchByText : String → Option (List Candidate)
  productCtx : Int → CatalogRes

/-- Observable effects and resulting data of one webhook delivery. -/
structure World where
  messages : List MsgRow
  state : ConvState
  stateWrites : List ConvState
  sends : List String
  modelCalls : Nat
  catalogCalls : Nat
  outcome : String
  rateLimited : Option RL

/-- Control flow of a turn fragment: normal continuation, GeminiRateLimitError
propagating to the handler, or an uncaught exception. -/
inductive TurnFlow (α : Type) where
  | ok (w : World) (a : α)
  | rl (w : World) (e : RL)
  | crash (w : World)

def appendRow (msgs : List MsgRow) (role dir text : String) (waId : Option String) : List MsgRow :=
  msgs ++ [⟨role, dir, stripStr text, waId⟩]

def writeState (w : World) (st : ConvState) : World :=
  { w with state := st, stateWrites := w.stateWrites ++ [st] }

def bumpModel (w : World) : World := { w with modelCalls := w.modelCalls + 1 }

def bumpCatalog (w : World) : World := { w with catalogCalls := w.catalogCalls + 1 }

/-- Fixed reply of the non-text branch (main.py line 227). -/
def nonTextReply : String := "ممكن تبعتلي رسالتك نص؟ (دلوقتي أنا بستقبل رسائل Text بس)"

/-- Fixed re-prompt when the selected product has no context (main.py line 366). -/
def reAskReply : String := "تمام—ممكن تقولي تاني تقصد أنهي اختيار؟"

/-- GeminiRateLimitError handler (main.py lines 539-562): send the apology and
append it as the outbound row. -/
def finishRL (w : World) (e : RL) : World :=
  { w with sends := w.sends ++ [rlApology e.retryAfter],
           messages := appendRow w.messages "assistant" "outbound" (rlApology e.retryAfter) none,
           outcome := "ok", rateLimited := some e }

/-- Reconstruction of the `presented_list` local (main.py lines 268-275) from
the conversation state: prefer the stored candidate summaries, else rebuild
thin dicts from the stored ids (first 10, digit-rendering ones only). -/
def presentedFromState (state : ConvState) : List PyDict :=
  let lp : PyVal := match lookupKey state "last_presented_candidates" with
    | some v => if pyTruthy v then v else .plist []
    | none => .plist []
  let lpi : PyVal := match lookupKey state "last_presented_candidate_ids" with
    | some v => if pyTruthy v then v else .plist []
    | none => .plist []
  let fromIds : List PyDict := match lpi with
    | .plist l =>
      if l.isEmpty then []
      else (l.take 10).filterMap (fun pv =>
        if pyIsDigitL (pyStr pv).data then some [("id", PyVal.pint ((pyToInt? pv).getD 0))]
        else none)
    | _ => []
  match lp with
  | .plist l =>
    if l.isEmpty then fromIds
    else l.filterMap (fun x => match x with
      | .pdict d => match lookupKey d "id" with
        | some .pnull => none
        | some _ => some d
        | none => none
      | _ => none)
  | _ => fromIds

/-- Outcome of the pure selection-resolution step (main.py lines 277-284 plus
the positional id read on line 281): either an explicit positional reference
resolved with no model call, a crash reading a malformed id, the decision to
spend one model call on fuzzy selection, or `treat as a new query`. -/
inductive SelOutcome where
  | positional (sid : Int)
  | positionalCrash
  | fuzzy
  | cleared

/-- Model calls issued by the selection-resolution step itself. -/
def selOutcomeModelCalls : SelOutcome → Nat
  | .fuzzy => 1
  | _ => 0

def selectionResolution (userText : String) (presented : List PyDict) : SelOutcome :=
  match selectionIndex userText (presented.length : Int) with
  | some i =>
    match (lookupKey (presented.getD (i - 1).toNat []) "id").bind pyToInt? with
    | some sid => .positional sid
    | none => .positionalCrash
  | none =>
    if looksLikeSelection userText then .fuzzy else .cleared

/-- Continuation after a candidate id was (maybe) resolved (main.py lines
322-371): fetch context, record the selection, issue the grounded answer. -/
def resolveSelected (env : TurnEnv) (state : ConvState) (w : World) :
    Option Int → TurnFlow (ConvState × String)
  | some sid =>
    if sid ≠ 0 then
      let w := bumpCatalog w
      match env.productCtx sid with
      | .err | .notFound => .ok w (state, reAskReply)
      | .found =>
        let st := popKey (setKey state "selected_product_id" (.pint sid)) "last_presented_candidate_ids"
        let w := writeState w st
        match env.answerGrounded with
        | .error e => .rl (bumpModel w) e
        | .ok ans => .ok (bumpModel w) (st, ans)
    else .ok w (state, "")
  | none => .ok w (state, "")

/-- Selected id extracted from the fuzzy-selection result dict (main.py line
304-305; conversion failures are swallowed by the surrounding `except`). -/
def fuzzySelectedId (d : PyDict) : Option Int :=
  match lookupKey d "selected_id" with
  | some v => if pyTruthy v then pyToInt? v else none
  | none => none

/-- Selection phase of a turn (main.py lines 277-371). -/
def selectionPhase (env : TurnEnv) (userText : String) (presented : List PyDict)
    (state : ConvState) (w : World) : TurnFlow (ConvState × String) :=
  if presented.isEmpty then .ok w (state, "")
  else
    match selectionResolution userText presented with
    | .positional sid => resolveSelected env state w (some sid)
    | .positionalCrash => .crash w
    | .fuzzy =>
      match env.choose with
      | .error e => .rl (bumpModel w) e
      | .ok d => resolveSelected env state (bumpModel w) (fuzzySelectedId d)
    | .cleared =>
      let st := popKey (popKey state "last_presented_candidates") "last_presented_candidate_ids"
      resolveSelected env (st) (writeState w st) none

/-! ### Search flow (main.py lines 373-525) -/

def candIds (cands : List Candidate) : List Int := cands.filterMap (·.id)

/-- Validation of the model-claimed presented ids (main.py lines 455-464):
first 5 claimed values, parseable as int, and members of the real candidate
id set; everything else silently dropped. -/
def validatePresented (claimed : List PyVal) (cands : List Candidate) : List Int :=
  (claimed.take 5).filterMap (fun pv =>
    match pyToInt? pv with
    | some ip => if ip ∈ candIds cands then some ip else none
    | none => none)

/-- Reads `(rr.get("reply_text") or "").strip()`; `none` = the AttributeError
raised when the value is truthy but not a string. -/
def replyTextOf (rr : PyDict) : Option String :=
  match lookupKey rr "reply_text" with
  | none => some ""
  | some v =>
    if pyTruthy v then
      match v with
      | .pstr s => some (stripStr s)
      | _ => none
    else some ""

def claimedIdsOf (rr : PyDict) : List PyVal :=
  match lookupKey rr "presented_candidate_ids" with
  | some (.plist l) => l
  | _ => []

def optStrVal : Option String → PyVal
  | some s => .pstr s
  | none => .pnull

def optIntVal : Option Int → PyVal
  | some n => .pint n
  | none => .pnull

/-- The `id_to_row` dict comprehension keeps the last row per id. -/
def lastRowWithId (cands : List Candidate) (pid : Int) : Option Candidate :=
  (cands.filter (fun c => c.id == some pid)).getLast?

/-- Stored summary for one validated presented id (main.py lines 469-478). -/
def presentedSummary (cands : List Candidate) (pid : Int) : PyVal :=
  match lastRowWithId cands pid with
  | some c => .pdict [("id", .pint pid), ("display_name", optStrVal c.displayName),
                      ("consumer_price", optIntVal c.consumerPrice),
                      ("stock_quantity", optIntVal c.stockQuantity)]
  | none => .pdict [("id", .pint pid), ("display_name", .pnull),
                    ("consumer_price", .pnull), ("stock_quantity", .pnull)]

/-- Python `a or b` on strings (empty string is falsy). -/
def strFalsyOr (o : Option String) (d : String) : String :=
  match o with
  | some s => if s == "" then d else s
  | none => d

def fallbackLine (i : Nat) (c : Candidate) : String :=
  let name := strFalsyOr c.displayName (strFalsyOr c.slug "منتج")
  match c.consumerPrice with
  | some p => toString i ++ ") " ++ name ++ " - " ++ toString p ++ "ج"
  | none => toString i ++ ") " ++ name

def fallbackLines : Nat → List Candidate → List String
  | _, [] => []
  | i, c :: cs => fallbackLine i c :: fallbackLines (i + 1) cs

/-- Deterministic numbered-list reply used when the rerank reply text is empty
(main.py lines 484-495). -/
def fallbackReply (top3 : List Candidate) : String :=
  String.intercalate "\n" (["قدامي كذا اختيار مناسب:"] ++ fallbackLines 1 top3 ++ ["تحب أنهي واحد؟"])

/-- Ids persisted by the fallback branch: truthiness test drops id 0. -/
def topIdsOf (top3 : List Candidate) : List Int :=
  top3.filterMap (fun c => match c.id with
    | some n => if n ≠ 0 then some n else none
    | none => none)

/-- Summaries persisted by the fallback branch (`is not None` test). -/
def fallbackSummaries (top3 : List Candidate) : List PyVal :=
  (top3.filter (fun c => c.id.isSome)).map (fun c =>
    .pdict [("id", optIntVal c.id), ("display_name", optStrVal c.displayName),
            ("consumer_price", optIntVal c.consumerPrice),
            ("stock_quantity", optIntVal c.stockQuantity)])

def kwvalsOf (parsed : PyDict) : List PyVal :=
  match lookupKey parsed "keywords" with
  | some (.plist l) => l
  | _ => []

/-- The candidate retrieval of the search flow (main.py lines 396-403):
term search on the extracted keywords, else substring search on the raw
text; a caught DB exception yields the empty list. -/
def searchFor (env : TurnEnv) (userText : String) (parsed : PyDict) : List Candidate :=
  let kw := kwvalsOf parsed
  if kw.isEmpty then (env.searchByText userText).getD []
  else (env.searchByTerms (kw.map pyStr)).getD []

/-- The candidate set actually returned by this turn's search (empty when the
turn never got past the parse call). -/
def turnSearchCandidates (env : TurnEnv) (userText : String) : List Candidate :=
  match env.parse with
  | .error _ => []
  | .ok parsed => searchFor env userText parsed

/-- Search flow of a turn (main.py lines 374-525). -/
def searchPhase (env : TurnEnv) (userText : String) (state : ConvState) (w : World) :
    TurnFlow (ConvState × String) :=
  match env.parse with
  | .error e => .rl (bumpModel w) e
  | .ok parsed =>
    let w := bumpModel w
    let cands := searchFor env userText parsed
    let w := bumpCatalog w
    if cands.isEmpty then
      match env.answerPlain with
      | .error e => .rl (bumpModel w) e
      | .ok ans => .ok (bumpModel w) (state, ans)
    else
      match env.rerank with
      | .error e => .rl (bumpModel w) e
      | .ok rr =>
        let w := bumpModel w
        match replyTextOf rr with
        | none => .crash w
        | some replyText =>
          let safe := validatePresented (claimedIdsOf rr) cands
          let stA := if safe.isEmpty then state else
            setKey (setKey state "last_presented_candidate_ids" (.plist (safe.map PyVal.pint)))
              "last_presented_candidates" (.plist (safe.map (presentedSummary cands)))
          let wA := if safe.isEmpty then w else writeState w stA
          if replyText ≠ "" then .ok wA (stA, replyText)
          else
            let top3 := cands.take 3
            let stB := setKey (setKey stA "last_presented_candidate_ids"
                (.plist ((topIdsOf top3).map PyVal.pint)))
              "last_presented_candidates" (.plist (fallbackSummaries top3))
            .ok (writeState wA stB) (stB, fallbackReply top3)

/-! ### The webhook turn (main.py lines 168-570) -/

/-- One inbound delivery after envelope unwrapping
(`entry[0].changes[0].value.messages[0]`). -/
structure Inbound where
  fromNum : Option String
  waId : Option String
  msgType : String
  body : Option String

def initWorld (msgs0 : List MsgRow) (state0 : ConvState) : World :=
  ⟨msgs0, state0, [], [], 0, 0, "ok", none⟩

/-- Send the reply and append the outbound row (main.py lines 527-537); an
empty reply makes `append_message` raise, caught by the top-level handler. -/
def finalize (w : World) (aiReply : String) : World :=
  let w := { w with sends := w.sends ++ [aiReply] }
  if stripStr aiReply == "" then { w with outcome := "error" }
  else { w with messages := appendRow w.messages "assistant" "outbound" aiReply none,
                outcome := "ok" }

/-- Embedding of the webhook POST handler for one unwrapped inbound message:
dedup gate, non-text branch, selection phase, search flow, send/persist, and
the rate-limit handler. -/
def processTurn (env : TurnEnv) (msg : Inbound) (msgs0 : List MsgRow)
    (state0 : ConvState) : World :=
  let w0 := initWorld msgs0 state0
  match msg.fromNum with
  | none => w0
  | some u =>
    if u == "" then w0
    else if waMessageIdExists msgs0 msg.waId then w0
    else if msg.msgType ≠ "text" then
      let w1 := { w0 with messages := (appendRow w0.messages "user" "inbound"
                    ("[non-text message type=" ++ msg.msgType ++ "]") msg.waId) }
      let w2 := { w1 with sends := w1.sends ++ [nonTextReply] }
      { w2 with messages := appendRow w2.messages "assistant" "outbound" nonTextReply none }
    else
      let userText := stripStr ((msg.body).getD "")
      let w1 := { w0 with messages := (appendRow w0.messages "user" "inbound"
                    (if userText == "" then "[empty]" else userText) msg.waId) }
      match selectionPhase env userText (presentedFromState state0) state0 w1 with
      | .rl w e => finishRL w e
      | .crash w => { w with outcome := "error" }
      | .ok w (st, aiReply) =>
        if aiReply == "" then
          match searchPhase env userText st w with
          | .rl w e => finishRL w e
          | .crash w => { w with outcome := "error" }
          | .ok w (_, reply2) => finalize w reply2
        else finalize w aiReply

/-! ### Theorems: selection resolution -/

theorem mappingFirst_bounds (t : List Char) (maxN : Int) :
    ∀ pairs v, mappingFirst t maxN pairs = some v → 1 ≤ v ∧ v ≤ maxN := by
  intro pairs
  induction pairs with
  | nil => intro v h; simp [mappingFirst] at h
  | cons p rest ih =>
    intro v h
    obtain ⟨k, val⟩ := p
    rw [mappingFirst] at h
    split at h
    · rename_i hcond
      simp only [Bool.and_eq_true, decide_eq_true_eq] at hcond
      cases h
      exact ⟨hcond.1.2, hcond.2⟩
    · exact ih v h

/-- C10: whenever `_selection_index` returns an index it lies within
`1..maxN`, so the orchestrator's access to element `idx-1` of the presented
list is in bounds; for `maxN ≤ 0` or empty text no index is ever returned. -/
theorem selection_index_in_bounds (text : String) (maxN : Int) :
    (∀ i, selectionIndex text maxN = some i → 1 ≤ i ∧ i ≤ maxN) ∧
    (maxN ≤ 0 → selectionIndex text maxN = none) ∧
    (text = "" → selectionIndex text maxN = none) := by
  refine ⟨fun i h => ?_, fun h0 => ?_, fun he => ?_⟩
  · rw [selectionIndex] at h
    split at h
    · exact absurd h (by simp)
    · rename_i hguard
      split at h
      · rename_i hcond
        simp only [Bool.and_eq_true, decide_eq_true_eq] at hcond
        cases h
        exact ⟨hcond.1.2, hcond.2⟩
      · split at h
        · rename_i v hmap
          cases h
          exact mappingFirst_bounds _ _ _ _ hmap
        · split at h
          · split at h
            · rename_i h2
              simp only [beq_iff_eq] at h2
              cases h
              omega
            · split at h
              · rename_i h3
                simp only [decide_eq_true_eq] at h3
                cases h
                omega
              · exact absurd h (by simp)
          · split at h
            · split at h
              · rename_i hcond
                simp only [Bool.and_eq_true, decide_eq_true_eq] at hcond
                cases h
                exact ⟨hcond.1, hcond.2⟩
              · exact absurd h (by simp)
            · exact absurd h (by simp)
  · rw [selectionIndex]
    have : decide (maxN ≤ 0) = true := decide_eq_true h0
    simp [this]
  · subst he
    rfl

/-- C10 witness at a concrete input. -/
theorem selection_index_in_bounds_witness :
    (1 ≤ (2 : Int) ∧ (2 : Int) ≤ 3) ∧ selectionIndex "التاني" 0 = none ∧
    selectionIndex "" 3 = none :=
  ⟨(selection_index_in_bounds "التاني" 3).1 2 (by decide),
   (selection_index_in_bounds "التاني" 0).2.1 (by norm_num),
   (selection_index_in_bounds "" 3).2.2 rfl⟩

theorem selIdx_digit (k N : Nat) (h1 : 1 ≤ k) (h2 : k ≤ N) (h3 : N ≤ 10) :
    selectionIndex (Nat.repr k) (N : Int) = some (k : Int) := by
  have hN : 1 ≤ N := le_trans h1 h2
  interval_cases N <;> interval_cases k <;> decide

/-- Inert oracle bundle used to instantiate witnesses. -/
def trivialEnv : TurnEnv :=
  { choose := .ok [], parse := .ok [], rerank := .ok [],
    answerGrounded := .ok "ok", answerPlain := .ok "ok",
    searchByTerms := fun _ => some [], searchByText := fun _ => some [],
    productCtx := fun _ => .notFound }

/-- C1: a bare digit string `k` with `1 ≤ k ≤ N ≤ 10` resolves positionally to
the id of the k-th presented candidate, with no model call spent on the
selection; the selection phase proceeds directly with that id. -/
theorem digit_selection_resolves_positionally
    (k N : Nat) (presented : List PyDict) (entryId : Int)
    (h1 : 1 ≤ k) (h2 : k ≤ N) (h3 : N ≤ 10)
    (hlen : presented.length = N)
    (hid : lookupKey (presented.getD (k - 1) []) "id" = some (.pint entryId)) :
    selectionResolution (Nat.repr k) presented = .positional entryId ∧
    selOutcomeModelCalls (selectionResolution (Nat.repr k) presented) = 0 ∧
    (∀ env state w, selectionPhase env (Nat.repr k) presented state w =
      resolveSelected env state w (some entryId)) := by
  have hsel : selectionIndex (Nat.repr k) (presented.length : Int) = some (k : Int) := by
    rw [hlen]; exact selIdx_digit k N h1 h2 h3
  have htn : ((k : Int) - 1).toNat = k - 1 := by omega
  have hres : selectionResolution (Nat.repr k) presented = .positional entryId := by
    rw [selectionResolution, hsel]
    simp only [htn, hid, Option.bind]
    rfl
  have hne : presented.isEmpty = false := by
    cases presented with
    | nil => simp at hlen; omega
    | cons a l => rfl
  refine ⟨hres, by rw [hres]; rfl, fun env state w => ?_⟩
  rw [selectionPhase, hne, hres]
  rfl

/-- C1 witness: the spec scenario — "2" after presenting ids [10, 20, 30]. -/
theorem digit_selection_resolves_positionally_witness :
    selectionResolution (Nat.repr 2) [[("id", PyVal.pint 10)], [("id", PyVal.pint 20)], [("id", PyVal.pint 30)]] = .positional 20 ∧
    selOutcomeModelCalls (selectionResolution (Nat.repr 2) [[("id", PyVal.pint 10)], [("id", PyVal.pint 20)], [("id", PyVal.pint 30)]]) = 0 :=
  ⟨(digit_selection_resolves_positionally 2 3
      [[("id", PyVal.pint 10)], [("id", PyVal.pint 20)], [("id", PyVal.pint 30)]] 20
      (by norm_num) (by norm_num) (by norm_num) rfl rfl).1,
   (digit_selection_resolves_positionally 2 3
      [[("id", PyVal.pint 10)], [("id", PyVal.pint 20)], [("id", PyVal.pint 30)]] 20
      (by norm_num) (by norm_num) (by norm_num) rfl rfl).2.1⟩

/-- C5 counterexample: with five presented items, the middle-marker text
"middle" resolves to index 2, which is not the middle index 3 of a 5-element
list. -/
theorem middle_marker_counterexample :
    selectionIndex "middle" 5 = some 2 ∧ ((2 : Int) = 3 → False) :=
  ⟨by decide, by decide⟩

/-- C5 (amended): a middle-marker text that matched no earlier rule resolves
to index 1 when exactly 2 candidates are presented and to index 2 whenever at
least 3 are (regardless of where the middle actually lies). -/
theorem middle_marker_resolution (text : String) (maxN : Int)
    (hmid : (containsSub "في النص".data (lowerL (stripL text.data)) ||
             containsSub "النص".data (lowerL (stripL text.data)) ||
             containsSub "middle".data (lowerL (stripL text.data))) = true)
    (hdig : (pyIsDigitL (lowerL (stripL text.data)) &&
             decide (1 ≤ (natOfDigits (lowerL (stripL text.data)) : Int)) &&
             decide ((natOfDigits (lowerL (stripL text.data)) : Int) ≤ maxN)) = false)
    (hmap : mappingFirst (lowerL (stripL text.data)) maxN (selectionPairs maxN) = none)
    (hN : 2 ≤ maxN) :
    selectionIndex text maxN = some (if maxN = 2 then 1 else 2) := by
  have hne : (lowerL (stripL text.data)).isEmpty = false := by
    cases h : lowerL (stripL text.data) with
    | nil => rw [h] at hmid; simp [containsSub] at hmid
    | cons a l => rfl
  rw [selectionIndex]
  simp only [hne, Bool.false_or]
  have h0 : decide (maxN ≤ 0) = false := by simp; omega
  rw [h0]
  simp only [Bool.false_eq_true, if_false, hdig, hmap, hmid, if_true]
  by_cases h2 : maxN = 2
  · simp [h2]
  · have : (maxN == 2) = false := by simp [h2]
    rw [this]
    have h3 : decide (3 ≤ maxN) = true := by simp; omega
    rw [h3]
    simp [h2]

/-- C5 witness: "middle" with four presented candidates resolves to index 2. -/
theorem middle_marker_resolution_witness :
    selectionIndex "middle" 4 = some 2 := by
  have h := middle_marker_resolution "middle" 4 (by decide) (by decide) (by decide) (by norm_num)
  norm_num at h
  exact h

/-! ### Theorems: gateway defaulting (C8) -/

theorem lookupKey_append_one (d : PyDict) (k k2 : String) (v : PyVal) :
    lookupKey (d ++ [(k2, v)]) k =
      match lookupKey d k with
      | some w => some w
      | none => if k2 = k then some v else none := by
  induction d with
  | nil => simp [lookupKey]
  | cons p rest ih =>
    obtain ⟨k', v'⟩ := p
    simp only [List.cons_append, lookupKey]
    split
    · rfl
    · exact ih

theorem lookupKey_setdefault_isSome (d : PyDict) (k : String) (v : PyVal) :
    (lookupKey (setdefault d k v) k).isSome := by
  unfold setdefault
  split
  · rename_i h; exact h
  · rename_i h
    rw [lookupKey_append_one]
    cases hd : lookupKey d k with
    | some w => rw [hd] at h; exact absurd rfl h
    | none => simp

theorem lookupKey_setdefault_other (d : PyDict) (k k2 : String) (v : PyVal)
    (hne : k ≠ k2) : lookupKey (setdefault d k2 v) k = lookupKey d k := by
  unfold setdefault
  split
  · rfl
  · rw [lookupKey_append_one]
    cases hd : lookupKey d k with
    | some w => rfl
    | none => simp [Ne.symm hne]

theorem decodedDict_eq_nil (jloads : String → Option PyVal) (raw : String)
    (h : ∀ d, jloads (extractJson raw) ≠ some (.pdict d)) :
    decodedDict jloads raw = [] := by
  rw [decodedDict]
  by_cases he : extractJson raw = ""
  · simp [he]
  · simp only [he, if_false]

/-- C8: for every raw model output and decode behaviour, each structured
gateway wrapper returns (never raises — it is a total function) a dict with
its defaulted fields present; when the extracted text does not decode to a
JSON object the results are exactly the neutral defaults. -/
theorem gateway_defaults (jloads : String → Option PyVal) (raw : String) :
    (lookupKey (parse_search_request_data jloads raw) "intent").isSome ∧
    (lookupKey (parse_search_request_data jloads raw) "keywords").isSome ∧
    (lookupKey (parse_search_request_data jloads raw) "constraints").isSome ∧
    (lookupKey (rerank_candidates_data jloads raw) "reply_text").isSome ∧
    (lookupKey (rerank_candidates_data jloads raw) "presented_candidate_ids").isSome ∧
    (lookupKey (rerank_candidates_data jloads raw) "needs_clarification").isSome ∧
    (lookupKey (rerank_candidates_data jloads raw) "clarifying_question").isSome ∧
    (lookupKey (choose_from_presented_data jloads raw) "selected_id").isSome ∧
    ((∀ d, jloads (extractJson raw) ≠ some (.pdict d)) →
      parse_search_request_data jloads raw =
        [("intent", .pstr "other"), ("keywords", .plist []), ("constraints", .pdict [])] ∧
      rerank_candidates_data jloads raw =
        [("reply_text", .pstr ""), ("presented_candidate_ids", .plist []),
         ("needs_clarification", .pbool false), ("clarifying_question", .pstr "")] ∧
      choose_from_presented_data jloads raw = [("selected_id", .pnull)]) := by
  refine ⟨?_, ?_, ?_, ?_, ?_, ?_, ?_, ?_, fun h => ?_⟩
  · rw [parse_search_request_data,
      lookupKey_setdefault_other _ "intent" "constraints" _ (by decide),
      lookupKey_setdefault_other _ "intent" "keywords" _ (by decide)]
    exact lookupKey_setdefault_isSome _ _ _
  · rw [parse_search_request_data,
      lookupKey_setdefault_other _ "keywords" "constraints" _ (by decide)]
    exact lookupKey_setdefault_isSome _ _ _
  · rw [parse_search_request_data]
    exact lookupKey_setdefault_isSome _ _ _
  · rw [rerank_candidates_data,
      lookupKey_setdefault_other _ "reply_text" "clarifying_question" _ (by decide),
      lookupKey_setdefault_other _ "reply_text" "needs_clarification" _ (by decide),
      lookupKey_setdefault_other _ "reply_text" "presented_candidate_ids" _ (by decide)]
    exact lookupKey_setdefault_isSome _ _ _
  · rw [rerank_candidates_data,
      lookupKey_setdefault_other _ "presented_candidate_ids" "clarifying_question" _ (by decide),
      lookupKey_setdefault_other _ "presented_candidate_ids" "needs_clarification" _ (by decide)]
    exact lookupKey_setdefault_isSome _ _ _
  · rw [rerank_candidates_data,
      lookupKey_setdefault_other _ "needs_clarification" "clarifying_question" _ (by decide)]
    exact lookupKey_setdefault_isSome _ _ _
  · rw [rerank_candidates_data]
    exact lookupKey_setdefault_isSome _ _ _
  · rw [choose_from_presented_data]
    exact lookupKey_setdefault_isSome _ _ _
  · refine ⟨?_, ?_, ?_⟩
    · rw [parse_search_request_data, decodedDict_eq_nil jloads raw h]; rfl
    · rw [rerank_candidates_data, decodedDict_eq_nil jloads raw h]; rfl
    · rw [choose_from_presented_data, decodedDict_eq_nil jloads raw h]; rfl

/-- C8 witness: a decoder that always fails, on junk raw output. -/
theorem gateway_defaults_witness :
    parse_search_request_data (fun _ => none) "total garbage" =
      [("intent", .pstr "other"), ("keywords", .plist []), ("constraints", .pdict [])] ∧
    choose_from_presented_data (fun _ => none) "total garbage" = [("selected_id", .pnull)] :=
  ⟨((gateway_defaults (fun _ => none) "total garbage").2.2.2.2.2.2.2.2
      (fun d h => by cases h)).1,
   ((gateway_defaults (fun _ => none) "total garbage").2.2.2.2.2.2.2.2
      (fun d h => by cases h)).2.2⟩

/-! ### Theorems: duplicate drop (C3) and non-text branch (C7) -/

theorem stripL_nonspace_ends (a b : Char) (mid : List Char)
    (ha : isPySpace a = false) (hb : isPySpace b = false) :
    stripL (a :: (mid ++ [b])) = a :: (mid ++ [b]) := by
  unfold stripL stripWith
  rw [List.dropWhile_cons, ha]
  simp only [Bool.false_eq_true, if_false]
  rw [show (a :: (mid ++ [b])).reverse = b :: (mid.reverse ++ [a]) by simp]
  rw [List.dropWhile_cons, hb]
  simp

theorem stripStr_nonTextPlaceholder (mt : String) :
    stripStr ("[non-text message type=" ++ mt ++ "]") =
      "[non-text message type=" ++ mt ++ "]" := by
  have hd : ("[non-text message type=" ++ mt ++ "]").data =
      '[' :: (("non-text message type=".data ++ mt.data) ++ [']']) := by
    simp [String.data_append]
  apply String.ext
  show stripL ("[non-text message type=" ++ mt ++ "]").data = _
  rw [hd, stripL_nonspace_ends _ _ _ (by decide) (by decide)]

theorem stripStr_nonTextReply : stripStr nonTextReply = nonTextReply := by decide

/-- C3: a delivery whose provider message id is already recorded is dropped
before any processing: no new message row, no state write, no send, no model
or catalog call; the store and state are returned untouched. -/
theorem duplicate_delivery_dropped (env : TurnEnv) (msg : Inbound)
    (msgs0 : List MsgRow) (state0 : ConvState) (u : String)
    (hu : msg.fromNum = some u) (hne : u ≠ "")
    (hdup : waMessageIdExists msgs0 msg.waId = true) :
    (processTurn env msg msgs0 state0).messages = msgs0 ∧
    (processTurn env msg msgs0 state0).sends = [] ∧
    (processTurn env msg msgs0 state0).stateWrites = [] ∧
    (processTurn env msg msgs0 state0).state = state0 ∧
    (processTurn env msg msgs0 state0).modelCalls = 0 ∧
    (processTurn env msg msgs0 state0).catalogCalls = 0 := by
  have h1 : (u == "") = false := by simp [hne]
  have h : processTurn env msg msgs0 state0 = initWorld msgs0 state0 := by
    simp only [processTurn, hu, h1, hdup, Bool.false_eq_true, if_false, if_true]
  rw [h]
  exact ⟨rfl, rfl, rfl, rfl, rfl, rfl⟩

/-- C3 witness: redelivery of an already-recorded id `wamid.X`. -/
theorem duplicate_delivery_dropped_witness :
    (processTurn trivialEnv ⟨some "2010", some "wamid.X", "text", some "hello"⟩
      [⟨"user", "inbound", "hi", some "wamid.X"⟩] []).messages =
      [⟨"user", "inbound", "hi", some "wamid.X"⟩] ∧
    (processTurn trivialEnv ⟨some "2010", some "wamid.X", "text", some "hello"⟩
      [⟨"user", "inbound", "hi", some "wamid.X"⟩] []).sends = [] :=
  ⟨(duplicate_delivery_dropped trivialEnv _ _ [] "2010" rfl (by decide) (by decide)).1,
   (duplicate_delivery_dropped trivialEnv _ _ [] "2010" rfl (by decide) (by decide)).2.1⟩

/-- C7: a non-text delivery appends a placeholder inbound record, sends
exactly the fixed clarification reply, appends the outbound record, and
terminates with no model call, no catalog call and no state write. -/
theorem non_text_branch (env : TurnEnv) (msg : Inbound)
    (msgs0 : List MsgRow) (state0 : ConvState) (u : String)
    (hu : msg.fromNum = some u) (hne : u ≠ "")
    (hdup : waMessageIdExists msgs0 msg.waId = false)
    (htype : msg.msgType ≠ "text") :
    (processTurn env msg msgs0 state0).messages =
      msgs0 ++ [⟨"user", "inbound", "[non-text message type=" ++ msg.msgType ++ "]", msg.waId⟩,
                ⟨"assistant", "outbound", nonTextReply, none⟩] ∧
    (processTurn env msg msgs0 state0).sends = [nonTextReply] ∧
    (processTurn env msg msgs0 state0).modelCalls = 0 ∧
    (processTurn env msg msgs0 state0).catalogCalls = 0 ∧
    (processTurn env msg msgs0 state0).stateWrites = [] ∧
    (processTurn env msg msgs0 state0).state = state0 := by
  have h1 : (u == "") = false := by simp [hne]
  have h : processTurn env msg msgs0 state0 =
      { messages := appendRow (appendRow msgs0 "user" "inbound"
          ("[non-text message type=" ++ msg.msgType ++ "]") msg.waId)
          "assistant" "outbound" nonTextReply none,
        state := state0, stateWrites := [], sends := [nonTextReply],
        modelCalls := 0, catalogCalls := 0, outcome := "ok", rateLimited := none } := by
    simp only [processTurn, hu, h1, hdup, Bool.false_eq_true, if_false, if_true]
    rw [if_pos htype]
    rfl
  rw [h]
  refine ⟨?_, rfl, rfl, rfl, rfl, rfl⟩
  simp [appendRow, stripStr_nonTextPlaceholder, stripStr_nonTextReply]

/-- C7 witness: an image delivery gets the fixed clarification reply. -/
theorem non_text_branch_witness :
    (processTurn trivialEnv ⟨some "2010", some "wamid.Y", "image", none⟩ [] []).sends =
      [nonTextReply] ∧
    (processTurn trivialEnv ⟨some "2010", some "wamid.Y", "image", none⟩ [] []).modelCalls = 0 :=
  ⟨(non_text_branch trivialEnv _ [] [] "2010" rfl (by decide) (by decide) (by decide)).2.1,
   (non_text_branch trivialEnv _ [] [] "2010" rfl (by decide) (by decide) (by decide)).2.2.1⟩

/-! ### Theorems: unrecognized state keys round-trip (C9) -/

theorem lookupKey_setKey_other (d : PyDict) (k k2 : String) (v : PyVal)
    (hne : k ≠ k2) : lookupKey (setKey d k2 v) k = lookupKey d k := by
  induction d with
  | nil => simp [setKey, lookupKey, Ne.symm hne]
  | cons p rest ih =>
    obtain ⟨k', v'⟩ := p
    rw [setKey]
    split
    · rename_i hk
      subst hk
      rw [lookupKey, lookupKey, if_neg (Ne.symm hne), if_neg (Ne.symm hne)]
    · rw [lookupKey, lookupKey]
      split
      · rfl
      · exact ih

theorem lookupKey_popKey_other (d : PyDict) (k k2 : String)
    (hne : k ≠ k2) : lookupKey (popKey d k2) k = lookupKey d k := by
  induction d with
  | nil => rfl
  | cons p rest ih =>
    obtain ⟨k', v'⟩ := p
    rw [popKey]
    split
    · rename_i h
      subst h
      rw [ih, lookupKey, if_neg (Ne.symm hne)]
    · rw [lookupKey, lookupKey]
      split
      · rfl
      · exact ih

/-- Invariant: every state write so far, and the current persisted state,
agree with the loaded blob on key `k`. -/
def PreservesKey (k : String) (st0 : ConvState) (w : World) : Prop :=
  (∀ s' ∈ w.stateWrites, lookupKey s' k = lookupKey st0 k) ∧
  lookupKey w.state k = lookupKey st0 k

def FlowPreserves (k : String) (st0 : ConvState) : TurnFlow (ConvState × String) → Prop
  | .ok w (st, _) => PreservesKey k st0 w ∧ lookupKey st k = lookupKey st0 k
  | .rl w _ => PreservesKey k st0 w
  | .crash w => PreservesKey k st0 w

theorem preservesKey_writeState (k : String) (st0 : ConvState) (w : World)
    (st : ConvState) (hw : PreservesKey k st0 w)
    (hst : lookupKey st k = lookupKey st0 k) :
    PreservesKey k st0 (writeState w st) := by
  refine ⟨fun s' hs' => ?_, hst⟩
  rw [writeState] at hs'
  simp only [List.mem_append, List.mem_singleton] at hs'
  cases hs' with
  | inl h => exact hw.1 s' h
  | inr h => rw [h]; exact hst

theorem resolveSelected_preserves (k : String) (st0 : ConvState)
    (hk1 : k ≠ "selected_product_id") (hk2 : k ≠ "last_presented_candidate_ids")
    (env : TurnEnv) (state : ConvState) (w : World) (sid? : Option Int)
    (hw : PreservesKey k st0 w) (hst : lookupKey state k = lookupKey st0 k) :
    FlowPreserves k st0 (resolveSelected env state w sid?) := by
  cases sid? with
  | none => exact ⟨hw, hst⟩
  | some sid =>
    rw [resolveSelected]
    split
    · cases hctx : env.productCtx sid with
      | err => simp only [hctx]; exact ⟨hw, hst⟩
      | notFound => simp only [hctx]; exact ⟨hw, hst⟩
      | found =>
        simp only [hctx]
        have hst2 : lookupKey (popKey (setKey state "selected_product_id" (.pint sid))
            "last_presented_candidate_ids") k = lookupKey st0 k := by
          rw [lookupKey_popKey_other _ _ _ hk2, lookupKey_setKey_other _ _ _ _ hk1, hst]
        have hw2 := preservesKey_writeState k st0 (bumpCatalog w) _ hw hst2
        cases hg : env.answerGrounded with
        | error e => simp only [hg]; exact hw2
        | ok ans => simp only [hg]; exact ⟨hw2, hst2⟩
    · exact ⟨hw, hst⟩

theorem selectionPhase_preserves (k : String) (st0 : ConvState)
    (hk1 : k ≠ "selected_product_id") (hk2 : k ≠ "last_presented_candidate_ids")
    (hk3 : k ≠ "last_presented_candidates")
    (env : TurnEnv) (userText : String) (presented : List PyDict)
    (state : ConvState) (w : World)
    (hw : PreservesKey k st0 w) (hst : lookupKey state k = lookupKey st0 k) :
    FlowPreserves k st0 (selectionPhase env userText presented state w) := by
  rw [selectionPhase]
  split
  · exact ⟨hw, hst⟩
  · cases hres : selectionResolution userText presented with
    | positional sid => exact resolveSelected_preserves k st0 hk1 hk2 env state w _ hw hst
    | positionalCrash => exact hw
    | fuzzy =>
      cases hc : env.choose with
      | error e => exact hw
      | ok d => exact resolveSelected_preserves k st0 hk1 hk2 env state _ _ hw hst
    | cleared =>
      have hst2 : lookupKey (popKey (popKey state "last_presented_candidates")
          "last_presented_candidate_ids") k = lookupKey st0 k := by
        rw [lookupKey_popKey_other _ _ _ hk2, lookupKey_popKey_other _ _ _ hk3, hst]
      exact resolveSelected_preserves k st0 hk1 hk2 env _ _ _
        (preservesKey_writeState k st0 w _ hw hst2) hst2

theorem searchPhase_preserves (k : String) (st0 : ConvState)
    (hk2 : k ≠ "last_presented_candidate_ids")
    (hk3 : k ≠ "last_presented_candidates")
    (env : TurnEnv) (userText : String) (state : ConvState) (w : World)
    (hw : PreservesKey k st0 w) (hst : lookupKey state k = lookupKey st0 k) :
    FlowPreserves k st0 (searchPhase env userText state w) := by
  have hgen : ∀ (st' : ConvState) (va vb : PyVal), lookupKey st' k = lookupKey st0 k →
      lookupKey (setKey (setKey st' "last_presented_candidate_ids" va)
        "last_presented_candidates" vb) k = lookupKey st0 k := by
    intro st' va vb h'
    rw [lookupKey_setKey_other _ _ _ _ hk3, lookupKey_setKey_other _ _ _ _ hk2, h']
  rw [searchPhase]
  cases hp : env.parse with
  | error e => exact hw
  | ok parsed =>
    simp only []
    split
    · cases ha : env.answerPlain with
      | error e => exact hw
      | ok ans => exact ⟨hw, hst⟩
    · cases hr : env.rerank with
      | error e => exact hw
      | ok rr =>
        simp only []
        cases hrt : replyTextOf rr with
        | none => exact hw
        | some replyText =>
          simp only []
          by_cases hsafe : (validatePresented (claimedIdsOf rr) (searchFor env userText parsed)).isEmpty
          · simp only [hsafe, if_true]
            split
            · exact ⟨hw, hst⟩
            · exact ⟨preservesKey_writeState k st0 _ _ hw (hgen _ _ _ hst), hgen _ _ _ hst⟩
          · simp only [hsafe, if_false, Bool.false_eq_true]
            have hwA := preservesKey_writeState k st0 w _ hw (hgen state
              (.plist ((validatePresented (claimedIdsOf rr) (searchFor env userText parsed)).map PyVal.pint))
              (.plist ((validatePresented (claimedIdsOf rr) (searchFor env userText parsed)).map
                (presentedSummary (searchFor env userText parsed)))) hst)
            split
            · exact ⟨hwA, hgen _ _ _ hst⟩
            · exact ⟨preservesKey_writeState k st0 _ _ hwA (hgen _ _ _ (hgen _ _ _ hst)),
                hgen _ _ _ (hgen _ _ _ hst)⟩

theorem preservesKey_finalize (k : String) (st0 : ConvState) (w : World)
    (r : String) (hw : PreservesKey k st0 w) : PreservesKey k st0 (finalize w r) := by
  simp only [finalize]
  split
  · exact hw
  · exact hw

/-- C9: processing one turn preserves every unrecognized conversation-state
key: each state blob written during the turn, and the final persisted blob,
agree with the loaded blob on every key other than the three recognized ones. -/
theorem unrecognized_state_keys_preserved (env : TurnEnv) (msg : Inbound)
    (msgs0 : List MsgRow) (st0 : ConvState) (k : String)
    (hk2 : k ≠ "last_presented_candidate_ids")
    (hk3 : k ≠ "last_presented_candidates")
    (hk1 : k ≠ "selected_product_id") :
    (∀ s' ∈ (processTurn env msg msgs0 st0).stateWrites,
      lookupKey s' k = lookupKey st0 k) ∧
    lookupKey (processTurn env msg msgs0 st0).state k = lookupKey st0 k := by
  have hmk : ∀ (msgs : List MsgRow) (sends : List String) (m c : Nat) (o : String)
      (rl : Option RL), PreservesKey k st0 ⟨msgs, st0, [], sends, m, c, o, rl⟩ :=
    fun msgs sends m c o rl => ⟨fun s' hs' => (by cases hs'), rfl⟩
  suffices h : PreservesKey k st0 (processTurn env msg msgs0 st0) from ⟨h.1, h.2⟩
  simp only [processTurn, initWorld]
  cases hfrom : msg.fromNum with
  | none => exact hmk _ _ _ _ _ _
  | some u =>
    simp only []
    split
    · exact hmk _ _ _ _ _ _
    · split
      · exact hmk _ _ _ _ _ _
      · split
        · exact hmk _ _ _ _ _ _
        · have hs := selectionPhase_preserves k st0 hk1 hk2 hk3 env
            (stripStr (msg.body.getD "")) (presentedFromState st0) st0
            ⟨appendRow msgs0 "user" "inbound"
              (if stripStr (msg.body.getD "") == "" then "[empty]"
               else stripStr (msg.body.getD "")) msg.waId, st0, [], [], 0, 0, "ok", none⟩
            (hmk _ _ _ _ _ _) rfl
          split
          · rename_i w e heq
            rw [heq] at hs
            exact hs
          · rename_i w heq
            rw [heq] at hs
            exact hs
          · rename_i w st aiReply heq
            rw [heq] at hs
            obtain ⟨hw', hst'⟩ := hs
            have hs2 := searchPhase_preserves k st0 hk2 hk3 env
              (stripStr (msg.body.getD "")) st w hw' hst'
            split
            · split
              · rename_i w2 e2 heq2
                rw [heq2] at hs2
                exact hs2
              · rename_i w2 heq2
                rw [heq2] at hs2
                exact hs2
              · rename_i w2 p2 heq2
                rw [heq2] at hs2
                exact preservesKey_finalize k st0 _ _ hs2.1
            · exact preservesKey_finalize k st0 _ _ hw'

/-- C9 witness: a custom key survives a turn that clears the presented list. -/
theorem unrecognized_state_keys_preserved_witness :
    lookupKey ((processTurn trivialEnv
      ⟨some "2010", some "w1", "text", some "please show me some other products entirely"⟩
      [] [("custom_flag", PyVal.pstr "x"),
          ("last_presented_candidate_ids", PyVal.plist [PyVal.pint 7])]).state)
      "custom_flag" =
    lookupKey [("custom_flag", PyVal.pstr "x"),
               ("last_presented_candidate_ids", PyVal.plist [PyVal.pint 7])] "custom_flag" :=
  (unrecognized_state_keys_preserved trivialEnv _ _ _ "custom_flag"
    (by decide) (by decide) (by decide)).2

/-! ### Theorems: presented ids validated against real candidates (C2) -/

theorem lookupKey_popKey_self (d : PyDict) (k : String) :
    lookupKey (popKey d k) k = none := by
  induction d with
  | nil => rfl
  | cons p rest ih =>
    obtain ⟨k', v'⟩ := p
    rw [popKey]
    split
    · exact ih
    · rename_i h
      rw [lookupKey, if_neg h]
      exact ih

theorem lookupKey_setKey_self (d : PyDict) (k : String) (v : PyVal) :
    lookupKey (setKey d k v) k = some v := by
  induction d with
  | nil => simp [setKey, lookupKey]
  | cons p rest ih =>
    obtain ⟨k', v'⟩ := p
    rw [setKey]
    split
    · rename_i h
      rw [lookupKey, if_pos rfl]
    · rename_i h
      rw [lookupKey, if_neg h]
      exact ih

theorem validatePresented_subset (claimed : List PyVal) (cands : List Candidate) :
    ∀ n ∈ validatePresented claimed cands, n ∈ candIds cands := by
  intro n hn
  rw [validatePresented, List.mem_filterMap] at hn
  obtain ⟨pv, _, hf⟩ := hn
  cases hpi : pyToInt? pv with
  | none => rw [hpi] at hf; cases hf
  | some ip =>
    rw [hpi] at hf
    simp only [] at hf
    split at hf
    · cases hf
      assumption
    · cases hf

theorem topIdsOf_subset (cands : List Candidate) (k : Nat) :
    ∀ n ∈ topIdsOf (cands.take k), n ∈ candIds cands := by
  intro n hn
  rw [topIdsOf, List.mem_filterMap] at hn
  obtain ⟨c, hc, hf⟩ := hn
  have hc' : c ∈ cands := List.mem_of_mem_take hc
  cases hid : c.id with
  | none => rw [hid] at hf; cases hf
  | some m =>
    rw [hid] at hf
    simp only [] at hf
    split at hf
    · cases hf
      exact List.mem_filterMap.mpr ⟨c, hc', hid⟩
    · cases hf

/-- Written blob property: any list stored under the presented-ids key holds
integer values drawn from `cands`. -/
def IdsFromCands (cands : List Candidate) (s' : ConvState) : Prop :=
  ∀ l, lookupKey s' "last_presented_candidate_ids" = some (.plist l) →
    ∀ x ∈ l, ∃ n : Int, x = .pint n ∧ n ∈ candIds cands

def WritesFromCands (cands : List Candidate) (w : World) : Prop :=
  ∀ s' ∈ w.stateWrites, IdsFromCands cands s'

def FlowWritesFrom (cands : List Candidate) : TurnFlow (ConvState × String) → Prop
  | .ok w _ => WritesFromCands cands w
  | .rl w _ => WritesFromCands cands w
  | .crash w => WritesFromCands cands w

theorem writesFromCands_writeState (cands : List Candidate) (w : World)
    (st : ConvState) (hw : WritesFromCands cands w) (hst : IdsFromCands cands st) :
    WritesFromCands cands (writeState w st) := by
  intro s' hs'
  rw [writeState] at hs'
  simp only [List.mem_append, List.mem_singleton] at hs'
  cases hs' with
  | inl h => exact hw s' h
  | inr h => rw [h]; exact hst

theorem resolveSelected_writesFrom (cands : List Candidate) (env : TurnEnv)
    (state : ConvState) (w : World) (sid? : Option Int)
    (hw : WritesFromCands cands w) :
    FlowWritesFrom cands (resolveSelected env state w sid?) := by
  cases sid? with
  | none => exact hw
  | some sid =>
    rw [resolveSelected]
    split
    · cases hctx : env.productCtx sid with
      | err => simp only [hctx]; exact hw
      | notFound => simp only [hctx]; exact hw
      | found =>
        simp only [hctx]
        have hw2 : WritesFromCands cands (writeState (bumpCatalog w)
            (popKey (setKey state "selected_product_id" (.pint sid))
              "last_presented_candidate_ids")) := by
          refine writesFromCands_writeState cands _ _ hw ?_
          intro l hl
          rw [lookupKey_popKey_self] at hl
          cases hl
        cases hg : env.answerGrounded with
        | error e => exact hw2
        | ok ans => exact hw2
    · exact hw

theorem selectionPhase_writesFrom (cands : List Candidate) (env : TurnEnv)
    (userText : String) (presented : List PyDict) (state : ConvState) (w : World)
    (hw : WritesFromCands cands w) :
    FlowWritesFrom cands (selectionPhase env userText presented state w) := by
  rw [selectionPhase]
  split
  · exact hw
  · cases hres : selectionResolution userText presented with
    | positional sid => exact resolveSelected_writesFrom cands env state w _ hw
    | positionalCrash => exact hw
    | fuzzy =>
      cases hc : env.choose with
      | error e => exact hw
      | ok d => exact resolveSelected_writesFrom cands env state _ _ hw
    | cleared =>
      refine resolveSelected_writesFrom cands env _ _ none
        (writesFromCands_writeState cands w _ hw ?_)
      intro l hl
      rw [lookupKey_popKey_self] at hl
      cases hl

theorem searchPhase_writesFrom (env : TurnEnv) (userText : String)
    (state : ConvState) (w : World)
    (hw : WritesFromCands (turnSearchCandidates env userText) w) :
    FlowWritesFrom (turnSearchCandidates env userText)
      (searchPhase env userText state w) := by
  rw [searchPhase]
  cases hp : env.parse with
  | error e => exact hw
  | ok parsed =>
    have hcs : turnSearchCandidates env userText = searchFor env userText parsed := by
      rw [turnSearchCandidates, hp]
    simp only []
    split
    · cases ha : env.answerPlain with
      | error e => exact hw
      | ok ans => exact hw
    · cases hr : env.rerank with
      | error e => exact hw
      | ok rr =>
        simp only []
        cases hrt : replyTextOf rr with
        | none => exact hw
        | some replyText =>
          simp only []
          have hsafeIds : IdsFromCands (turnSearchCandidates env userText)
              (setKey (setKey state "last_presented_candidate_ids"
                (.plist ((validatePresented (claimedIdsOf rr)
                  (searchFor env userText parsed)).map PyVal.pint)))
                "last_presented_candidates"
                (.plist ((validatePresented (claimedIdsOf rr)
                  (searchFor env userText parsed)).map
                    (presentedSummary (searchFor env userText parsed))))) := by
            intro l hl
            rw [lookupKey_setKey_other _ _ _ _ (by decide),
              lookupKey_setKey_self] at hl
            cases hl
            intro x hx
            rw [List.mem_map] at hx
            obtain ⟨n, hn, hxn⟩ := hx
            exact ⟨n, hxn.symm, hcs ▸ validatePresented_subset _ _ n hn⟩
          have htopIds : ∀ (st' : ConvState), IdsFromCands (turnSearchCandidates env userText)
              (setKey (setKey st' "last_presented_candidate_ids"
                (.plist ((topIdsOf ((searchFor env userText parsed).take 3)).map PyVal.pint)))
                "last_presented_candidates"
                (.plist (fallbackSummaries ((searchFor env userText parsed).take 3)))) := by
            intro st' l hl
            rw [lookupKey_setKey_other _ _ _ _ (by decide),
              lookupKey_setKey_self] at hl
            cases hl
            intro x hx
            rw [List.mem_map] at hx
            obtain ⟨n, hn, hxn⟩ := hx
            exact ⟨n, hxn.symm, hcs ▸ topIdsOf_subset _ 3 n hn⟩
          by_cases hsafe : (validatePresented (claimedIdsOf rr)
              (searchFor env userText parsed)).isEmpty
          · simp only [hsafe, if_true]
            split
            · exact hw
            · exact writesFromCands_writeState _ w _ hw (htopIds state)
          · simp only [hsafe, if_false, Bool.false_eq_true]
            have hwA := writesFromCands_writeState _ w _ hw hsafeIds
            split
            · exact hwA
            · exact writesFromCands_writeState _ _ _ hwA (htopIds _)

/-- Finalize and finishRL write no state. -/
theorem writesFromCands_finalize (cands : List Candidate) (w : World) (r : String)
    (hw : WritesFromCands cands w) : WritesFromCands cands (finalize w r) := by
  simp only [finalize]
  split
  · exact hw
  · exact hw

/-- C2: every id persisted into `last_presented_candidate_ids` during a turn
is an integer drawn from the candidate set actually returned by that turn's
search; and the validation step considers at most the first five model-claimed
ids and keeps only members of the real candidate id set. -/
theorem presented_ids_validated (env : TurnEnv) (msg : Inbound)
    (msgs0 : List MsgRow) (st0 : ConvState) :
    (∀ s' ∈ (processTurn env msg msgs0 st0).stateWrites, ∀ l,
      lookupKey s' "last_presented_candidate_ids" = some (.plist l) →
      ∀ x ∈ l, ∃ n : Int, x = .pint n ∧
        n ∈ candIds (turnSearchCandidates env (stripStr (msg.body.getD "")))) ∧
    (∀ (claimed : List PyVal) (cands : List Candidate),
      validatePresented claimed cands = validatePresented (claimed.take 5) cands ∧
      ∀ n ∈ validatePresented claimed cands, n ∈ candIds cands) := by
  refine ⟨?_, fun claimed cands =>
    ⟨by rw [validatePresented, validatePresented, List.take_take]; norm_num,
     validatePresented_subset claimed cands⟩⟩
  have hmk : ∀ (msgs : List MsgRow) (sends : List String) (m c : Nat) (o : String)
      (rl : Option RL),
      WritesFromCands (turnSearchCandidates env (stripStr (msg.body.getD "")))
        ⟨msgs, st0, [], sends, m, c, o, rl⟩ :=
    fun msgs sends m c o rl s' hs' => by cases hs'
  suffices h : WritesFromCands (turnSearchCandidates env (stripStr (msg.body.getD "")))
      (processTurn env msg msgs0 st0) from h
  simp only [processTurn, initWorld]
  cases hfrom : msg.fromNum with
  | none => exact hmk _ _ _ _ _ _
  | some u =>
    simp only []
    split
    · exact hmk _ _ _ _ _ _
    · split
      · exact hmk _ _ _ _ _ _
      · split
        · exact hmk _ _ _ _ _ _
        · have hs := selectionPhase_writesFrom
            (turnSearchCandidates env (stripStr (msg.body.getD ""))) env
            (stripStr (msg.body.getD "")) (presentedFromState st0) st0
            ⟨appendRow msgs0 "user" "inbound"
              (if stripStr (msg.body.getD "") == "" then "[empty]"
               else stripStr (msg.body.getD "")) msg.waId, st0, [], [], 0, 0, "ok", none⟩
            (hmk _ _ _ _ _ _)
          split
          · rename_i w e heq
            rw [heq] at hs
            exact hs
          · rename_i w heq
            rw [heq] at hs
            exact hs
          · rename_i w st aiReply heq
            rw [heq] at hs
            have hs2 := searchPhase_writesFrom env (stripStr (msg.body.getD "")) st w hs
            split
            · split
              · rename_i w2 e2 heq2
                rw [heq2] at hs2
                exact hs2
              · rename_i w2 heq2
                rw [heq2] at hs2
                exact hs2
              · rename_i w2 p2 heq2
                rw [heq2] at hs2
                exact writesFromCands_finalize _ _ _ hs2
            · exact writesFromCands_finalize _ _ _ hs

/-- C2 witness: claimed ids [3, 99] against candidates {3, 5}: 99 is dropped,
3 is kept and is a real candidate id. -/
theorem presented_ids_validated_witness :
    (3 : Int) ∈ candIds [⟨some 3, none, none, none, none⟩, ⟨some 5, none, none, none, none⟩] :=
  ((presented_ids_validated trivialEnv ⟨some "1", none, "text", none⟩ [] []).2
    [PyVal.pint 3, PyVal.pint 99]
    [⟨some 3, none, none, none, none⟩, ⟨some 5, none, none, none, none⟩]).2 3 (by decide)

/-! ### Theorems: rate-limit handling (C4) -/

theorem startsWithL_self_append (s b : List Char) : startsWithL s (s ++ b) = true := by
  induction s with
  | nil => rfl
  | cons c s' ih => simp [startsWithL, ih]

theorem containsSub_nil_needle (h : List Char) : containsSub [] h = true := by
  cases h with
  | nil => rfl
  | cons c rest => simp [containsSub, startsWithL]

theorem containsSub_at (a s b : List Char) : containsSub s (a ++ (s ++ b)) = true := by
  induction a with
  | nil =>
    rw [List.nil_append]
    cases s with
    | nil => exact containsSub_nil_needle ([] ++ b)
    | cons c s' =>
      simp only [List.cons_append, containsSub, List.append_eq]
      rw [show startsWithL (c :: s') (c :: (s' ++ b)) = true from startsWithL_self_append (c :: s') b]
      simp
  | cons x a' ih =>
    simp only [List.cons_append, containsSub, List.append_eq, ih, Bool.or_true]

/-- Oracle bundle for the rate-limit counterexample: the turn's first search
parse rate-limits with a 10-second hint. -/
def rlEnvParse : TurnEnv := { trivialEnv with parse := .error ⟨some 10⟩ }

def rlStateC4 : ConvState := [("last_presented_candidate_ids", PyVal.plist [PyVal.pint 7])]

def rlMsgC4 : Inbound :=
  ⟨some "2010", some "w9", "text", some "please show me some other products entirely thanks"⟩

/-- C4 counterexample: (i) a 10.5-second hint yields a wait of 11 seconds in
the apology while ceil(10.5)+1 = 12, so the advertised ceil(t)+1 policy is
wrong; (ii) a rate-limited turn can mutate the presented-list state: here the
presented list is cleared and written before the parse call rate-limits. -/
theorem rate_limit_counterexample :
    rlApology (some (21 / 2 : ℚ)) = "معلش حصل ضغط على الخدمة—جرّب كمان 11 ثانية." ∧
    (⌈(21 / 2 : ℚ)⌉ + 1 : Int) = 12 ∧ ((11 : Int) = 12 → False) ∧
    (processTurn rlEnvParse rlMsgC4 [] rlStateC4).sends = [rlApology (some 10)] ∧
    (processTurn rlEnvParse rlMsgC4 [] rlStateC4).stateWrites = [[]] ∧
    lookupKey rlStateC4 "last_presented_candidate_ids" = some (.plist [.pint 7]) ∧
    lookupKey ((processTurn rlEnvParse rlMsgC4 [] rlStateC4).state)
      "last_presented_candidate_ids" = none := by
  have ht : ratTrunc (21 / 2 : ℚ) = 10 := by
    rw [ratTrunc, if_pos (by norm_num)]
    norm_num [Int.floor_eq_iff]
  have hc : (⌈(21 / 2 : ℚ)⌉ : Int) = 11 := by
    rw [Int.ceil_eq_iff]
    constructor <;> norm_num
  refine ⟨?_, by norm_num [hc], by norm_num, rfl, rfl, rfl, rfl⟩
  rw [rlApology, if_pos (by norm_num), ht]
  rfl

/-- Invariant: a turn fragment has sent nothing outbound, has seen no
rate-limit error, and its persisted state is exactly its last state write
(the loaded blob if none was made). -/
def NoAbortYet (st0 : ConvState) (w : World) : Prop :=
  w.sends = [] ∧ w.rateLimited = none ∧
  w.state = (w.stateWrites.getLast?).getD st0

def FlowNoAbort (st0 : ConvState) : TurnFlow (ConvState × String) → Prop
  | .ok w _ => NoAbortYet st0 w
  | .rl w _ => NoAbortYet st0 w
  | .crash w => NoAbortYet st0 w

theorem getLast?_append_singleton {α : Type} (l : List α) (a : α) :
    (l ++ [a]).getLast? = some a := by
  rw [List.getLast?_concat]

theorem noAbortYet_writeState (st0 : ConvState) (w : World) (st : ConvState)
    (hw : NoAbortYet st0 w) : NoAbortYet st0 (writeState w st) :=
  ⟨hw.1, hw.2.1, by rw [writeState]; simp only [getLast?_append_singleton]; rfl⟩

theorem resolveSelected_noAbort (st0 : ConvState) (env : TurnEnv)
    (state : ConvState) (w : World) (sid? : Option Int) (hw : NoAbortYet st0 w) :
    FlowNoAbort st0 (resolveSelected env state w sid?) := by
  cases sid? with
  | none => exact hw
  | some sid =>
    rw [resolveSelected]
    split
    · cases hctx : env.productCtx sid with
      | err => simp only [hctx]; exact hw
      | notFound => simp only [hctx]; exact hw
      | found =>
        simp only [hctx]
        cases hg : env.answerGrounded with
        | error e => exact noAbortYet_writeState st0 (bumpCatalog w) _ hw
        | ok ans => exact noAbortYet_writeState st0 (bumpCatalog w) _ hw
    · exact hw

theorem selectionPhase_noAbort (st0 : ConvState) (env : TurnEnv)
    (userText : String) (presented : List PyDict) (state : ConvState) (w : World)
    (hw : NoAbortYet st0 w) :
    FlowNoAbort st0 (selectionPhase env userText presented state w) := by
  rw [selectionPhase]
  split
  · exact hw
  · cases hres : selectionResolution userText presented with
    | positional sid => exact resolveSelected_noAbort st0 env state w _ hw
    | positionalCrash => exact hw
    | fuzzy =>
      cases hc : env.choose with
      | error e => exact hw
      | ok d => exact resolveSelected_noAbort st0 env state _ _ hw
    | cleared =>
      exact resolveSelected_noAbort st0 env _ _ none
        (noAbortYet_writeState st0 w _ hw)

theorem searchPhase_noAbort (st0 : ConvState) (env : TurnEnv)
    (userText : String) (state : ConvState) (w : World) (hw : NoAbortYet st0 w) :
    FlowNoAbort st0 (searchPhase env userText state w) := by
  rw [searchPhase]
  cases hp : env.parse with
  | error e => exact hw
  | ok parsed =>
    simp only []
    split
    · cases ha : env.answerPlain with
      | error e => exact hw
      | ok ans => exact hw
    · cases hr : env.rerank with
      | error e => exact hw
      | ok rr =>
        simp only []
        cases hrt : replyTextOf rr with
        | none => exact hw
        | some replyText =>
          simp only []
          by_cases hsafe : (validatePresented (claimedIdsOf rr)
              (searchFor env userText parsed)).isEmpty
          · simp only [hsafe, if_true]
            split
            · exact hw
            · exact noAbortYet_writeState st0 w _ hw
          · simp only [hsafe, if_false, Bool.false_eq_true]
            split
            · exact noAbortYet_writeState st0 w _ hw
            · exact noAbortYet_writeState st0 _ _ (noAbortYet_writeState st0 w _ hw)

theorem finalize_rateLimited (w : World) (r : String) :
    (finalize w r).rateLimited = w.rateLimited := by
  simp only [finalize]
  split
  · rfl
  · rfl

/-- C4 (amended): whenever any language-model call raises the rate-limit
error during a turn — the handler having run is observed as `rateLimited` —
the rest of the turn is aborted and the apology is the turn's only outbound
send; the persisted conversation state is exactly the last state write made
before the error (the loaded blob if none): earlier writes persist and are
not rolled back.  When the error is raised by the fuzzy-selection call, no
conversation-state mutation occurs at all.  An apology for a retry hint of
t > 0 seconds contains the wait time trunc(t)+1. -/
theorem rate_limit_handling (env : TurnEnv) (msg : Inbound)
    (msgs0 : List MsgRow) (st0 : ConvState) :
    (∀ e, (processTurn env msg msgs0 st0).rateLimited = some e →
      (processTurn env msg msgs0 st0).sends = [rlApology e.retryAfter] ∧
      (processTurn env msg msgs0 st0).state =
        (((processTurn env msg msgs0 st0).stateWrites).getLast?).getD st0) ∧
    (∀ u e, msg.fromNum = some u → u ≠ "" →
      waMessageIdExists msgs0 msg.waId = false → msg.msgType = "text" →
      (presentedFromState st0).isEmpty = false →
      selectionIndex (stripStr (msg.body.getD ""))
        ((presentedFromState st0).length : Int) = none →
      looksLikeSelection (stripStr (msg.body.getD "")) = true →
      env.choose = .error e →
      (processTurn env msg msgs0 st0).rateLimited = some e ∧
      (processTurn env msg msgs0 st0).stateWrites = []) ∧
    (∀ t : ℚ, 0 < t →
      containsSub (toString (ratTrunc t + 1)).data (rlApology (some t)).data = true) := by
  refine ⟨?_, ?_, fun t h0 => ?_⟩
  · intro e hrl
    revert hrl
    simp only [processTurn, initWorld]
    cases hfrom : msg.fromNum with
    | none => intro hrl; cases hrl
    | some u =>
      simp only []
      split
      · intro hrl; cases hrl
      · split
        · intro hrl; cases hrl
        · split
          · intro hrl; cases hrl
          · have hs := selectionPhase_noAbort st0 env
              (stripStr (msg.body.getD "")) (presentedFromState st0) st0
              ⟨appendRow msgs0 "user" "inbound"
                (if stripStr (msg.body.getD "") == "" then "[empty]"
                 else stripStr (msg.body.getD "")) msg.waId, st0, [], [], 0, 0, "ok", none⟩
              ⟨rfl, rfl, rfl⟩
            split
            · rename_i w e' heq
              rw [heq] at hs
              intro hrl
              have he : e' = e := by
                rw [show (finishRL w e').rateLimited = some e' from rfl] at hrl
                cases hrl
                rfl
              subst he
              refine ⟨?_, ?_⟩
              · rw [show (finishRL w e').sends = w.sends ++ [rlApology e'.retryAfter] from rfl,
                  hs.1, List.nil_append]
              · rw [show (finishRL w e').state = w.state from rfl,
                  show (finishRL w e').stateWrites = w.stateWrites from rfl]
                exact hs.2.2
            · rename_i w heq
              rw [heq] at hs
              intro hrl
              rw [show ({ w with outcome := "error" } : World).rateLimited = w.rateLimited from rfl,
                hs.2.1] at hrl
              cases hrl
            · rename_i w st aiReply heq
              rw [heq] at hs
              split
              · have hs2 := searchPhase_noAbort st0 env
                  (stripStr (msg.body.getD "")) st w hs
                split
                · rename_i w2 e2 heq2
                  rw [heq2] at hs2
                  intro hrl
                  have he : e2 = e := by
                    rw [show (finishRL w2 e2).rateLimited = some e2 from rfl] at hrl
                    cases hrl
                    rfl
                  subst he
                  refine ⟨?_, ?_⟩
                  · rw [show (finishRL w2 e2).sends = w2.sends ++ [rlApology e2.retryAfter] from rfl,
                      hs2.1, List.nil_append]
                  · rw [show (finishRL w2 e2).state = w2.state from rfl,
                      show (finishRL w2 e2).stateWrites = w2.stateWrites from rfl]
                    exact hs2.2.2
                · rename_i w2 heq2
                  rw [heq2] at hs2
                  intro hrl
                  rw [show ({ w2 with outcome := "error" } : World).rateLimited = w2.rateLimited from rfl,
                    hs2.2.1] at hrl
                  cases hrl
                · rename_i w2 p2 heq2
                  rw [heq2] at hs2
                  intro hrl
                  rw [finalize_rateLimited, hs2.2.1] at hrl
                  cases hrl
              · intro hrl
                rw [finalize_rateLimited, hs.2.1] at hrl
                cases hrl
  · intro u e hu hne hdup htext hpres hsel hlooks hchoose
    have h1 : (u == "") = false := by simp [hne]
    have hnt : ¬(msg.msgType ≠ "text") := fun h => h htext
    have hres : selectionResolution (stripStr (msg.body.getD ""))
        (presentedFromState st0) = .fuzzy := by
      rw [selectionResolution, hsel, hlooks]
      rfl
    have hproc : processTurn env msg msgs0 st0 =
        finishRL (bumpModel ⟨appendRow msgs0 "user" "inbound"
          (if stripStr (msg.body.getD "") == "" then "[empty]"
           else stripStr (msg.body.getD "")) msg.waId, st0, [], [], 0, 0, "ok", none⟩) e := by
      simp only [processTurn, initWorld, hu, h1, hdup, Bool.false_eq_true, if_false, if_true]
      rw [if_neg hnt, selectionPhase, hpres, hres]
      simp only [Bool.false_eq_true, if_false, hchoose]
    exact ⟨by rw [hproc]; rfl, by rw [hproc]; rfl⟩
  · rw [rlApology, if_pos h0]
    have hd : ("معلش حصل ضغط على الخدمة—جرّب كمان " ++ toString (ratTrunc t + 1) ++ " ثانية.").data =
        "معلش حصل ضغط على الخدمة—جرّب كمان ".data ++
          ((toString (ratTrunc t + 1)).data ++ " ثانية.".data) := by
      simp [String.data_append]
    rw [hd]
    exact containsSub_at _ _ _

/-- C4 witness: a parse-site rate limit yields the apology as the only send;
a fuzzy-selection-site rate limit leaves no state write; the 10-second-hint
apology contains "11". -/
theorem rate_limit_handling_witness :
    (processTurn rlEnvParse rlMsgC4 [] rlStateC4).sends = [rlApology (some 10)] ∧
    (processTurn ({ trivialEnv with choose := .error ⟨some 10⟩ })
      ⟨some "2010", some "w3", "text", some "تاني"⟩ [] rlStateC4).stateWrites = [] ∧
    containsSub "11".data (rlApology (some 10)).data = true := by
  have h1 := (rate_limit_handling rlEnvParse rlMsgC4 [] rlStateC4).1 ⟨some 10⟩ rfl
  have h2 := (rate_limit_handling ({ trivialEnv with choose := .error ⟨some 10⟩ })
    ⟨some "2010", some "w3", "text", some "تاني"⟩ [] rlStateC4).2.1 "2010" ⟨some 10⟩
    rfl (by decide) (by decide) rfl (by decide) (by decide) (by decide) rfl
  have h3 := (rate_limit_handling rlEnvParse rlMsgC4 [] rlStateC4).2.2 10 (by norm_num)
  have h4 : ratTrunc (10 : ℚ) + 1 = 11 := by
    rw [ratTrunc, if_pos (by norm_num)]
    norm_num
  rw [h4] at h3
  exact ⟨h1.1, h2.2, h3⟩

/-! ### Theorems: term-scored search (C6) -/

/-- Term free of the SQL wildcard and escape characters. -/
def noWildL (p : List Char) : Bool :=
  p.all (fun c => !(c == '%') && !(c == '_') && !(c == '\\'))

theorem charOfNat_lower_toNat (m : Nat) (h1 : 97 ≤ m) (h2 : m ≤ 122) :
    (Char.ofNat m).toNat = m := by
  interval_cases m <;> decide

theorem asciiLower_preserves_noWild (c : Char) (h1 : (c == '%') = false)
    (h2 : (c == '_') = false) (h3 : (c == '\\') = false) :
    (asciiLower c == '%') = false ∧ (asciiLower c == '_') = false ∧
    (asciiLower c == '\\') = false := by
  rw [asciiLower]
  split
  · rename_i h
    obtain ⟨ha, hb⟩ := h
    refine ⟨?_, ?_, ?_⟩
    · rw [beq_eq_false_iff_ne]
      intro he
      have h4 := congrArg Char.toNat he
      rw [charOfNat_lower_toNat (c.toNat + 32) (by omega) (by omega)] at h4
      rw [show ('%').toNat = 37 from rfl] at h4
      omega
    · rw [beq_eq_false_iff_ne]
      intro he
      have h4 := congrArg Char.toNat he
      rw [charOfNat_lower_toNat (c.toNat + 32) (by omega) (by omega)] at h4
      rw [show ('_').toNat = 95 from rfl] at h4
      omega
    · rw [beq_eq_false_iff_ne]
      intro he
      have h4 := congrArg Char.toNat he
      rw [charOfNat_lower_toNat (c.toNat + 32) (by omega) (by omega)] at h4
      rw [show ('\\').toNat = 92 from rfl] at h4
      omega
  · exact ⟨h1, h2, h3⟩

theorem noWildL_lower (p : List Char) (hp : noWildL p = true) :
    noWildL (lowerL p) = true := by
  induction p with
  | nil => rfl
  | cons c cs ih =>
    rw [noWildL, lowerL, List.map_cons, List.all_cons]
    rw [noWildL, List.all_cons] at hp
    simp only [Bool.and_eq_true, Bool.not_eq_true'] at hp
    obtain ⟨⟨⟨h1, h2⟩, h3⟩, hrest⟩ := hp
    have ⟨g1, g2, g3⟩ := asciiLower_preserves_noWild c h1 h2 h3
    rw [g1, g2, g3]
    simp only [Bool.not_false, Bool.true_and, Bool.and_self]
    exact ih hrest

theorem containsSub_eq_any_tails (p : List Char) :
    ∀ s : List Char, containsSub p s = s.tails.any (startsWithL p) := by
  intro s
  induction s with
  | nil =>
    cases p with
    | nil => rfl
    | cons c p' => rfl
  | cons c s' ih =>
    rw [containsSub, List.tails_cons, List.any_cons, ih]

theorem likeMatch_plain_pct (p : List Char) :
    ∀ (_ : noWildL p = true) (s : List Char),
      likeMatch (p ++ ['%']) s = startsWithL p s := by
  induction p with
  | nil =>
    intro hp s
    rw [List.nil_append]
    simp only [likeMatch_cons, show (('%' : Char) == '\\') = false from rfl,
      beq_self_eq_true, Bool.false_eq_true, if_false, if_true]
    rw [show startsWithL [] s = true from rfl]
    induction s with
    | nil => rfl
    | cons c s' ih2 =>
      rw [List.tails_cons, List.any_cons, ih2, Bool.or_true]
  | cons c p' ih =>
    intro hp s
    rw [noWildL, List.all_cons] at hp
    simp only [Bool.and_eq_true, Bool.not_eq_true'] at hp
    obtain ⟨⟨⟨h1, h2⟩, h3⟩, hrest⟩ := hp
    cases s with
    | nil =>
      rw [List.cons_append]
      simp only [likeMatch_cons, h3, h1, Bool.false_eq_true, if_false]
      rfl
    | cons d s' =>
      rw [List.cons_append]
      simp only [likeMatch_cons, h3, h1, Bool.false_eq_true, if_false]
      rw [startsWithL, ih hrest s', h2]
      simp

theorem likeMatch_pct_plain_pct (p : List Char) (hp : noWildL p = true)
    (s : List Char) : likeMatch ('%' :: (p ++ ['%'])) s = containsSub p s := by
  simp only [likeMatch_cons, show (('%' : Char) == '\\') = false from rfl,
    beq_self_eq_true, Bool.false_eq_true, if_false, if_true]
  rw [containsSub_eq_any_tails]
  have : likeMatch (p ++ ['%']) = startsWithL p := funext (likeMatch_plain_pct p hp)
  rw [this]

/-- Specification-side score: the count of (term × field) case-insensitive
substring matches over the five searched fields (the spec's wording for
`search_by_terms`). -/
def specMatchCount (terms : List String) (r : ProductRow) : Nat :=
  (terms.map (fun t => ((searchCols r).filterMap id).countP
    (fun s => containsSub (lowerL t.data) (lowerL s.data)))).sum

theorem sqlILike_pat_eq_contains (t s : String) (ht : noWildL t.data = true) :
    sqlILike s (colPat t) = containsSub (lowerL t.data) (lowerL s.data) := by
  rw [sqlILike, colPat]
  have hd : ("%" ++ t ++ "%").data = '%' :: (t.data ++ ['%']) := by
    rw [String.data_append, String.data_append]
    rfl
  rw [hd]
  have hl : lowerL ('%' :: (t.data ++ ['%'])) = '%' :: (lowerL t.data ++ ['%']) := by
    rw [lowerL, List.map_cons, List.map_append]
    rfl
  rw [hl]
  exact likeMatch_pct_plain_pct (lowerL t.data) (noWildL_lower t.data ht) (lowerL s.data)

theorem scoreCols_eq_count (t : String) (ht : noWildL t.data = true) :
    ∀ cols : List (Option String), (∀ c ∈ cols, c.isSome) →
      scoreCols t cols = some ((cols.filterMap id).countP
        (fun s => containsSub (lowerL t.data) (lowerL s.data)) : Int) := by
  intro cols
  induction cols with
  | nil => intro _; simp [scoreCols]
  | cons c cs ih =>
    intro hall
    cases c with
    | none => exact absurd (hall none (List.mem_cons_self _ _)) (by simp)
    | some s =>
      rw [scoreCols, termColScore]
      rw [ih (fun c hc => hall c (List.mem_cons_of_mem _ hc))]
      rw [sqlILike_pat_eq_contains t s ht]
      rw [addNull]
      simp only [List.filterMap_cons, id, List.countP_cons]
      by_cases hm : containsSub (lowerL t.data) (lowerL s.data) = true
      · simp [hm]
        ring
      · rw [Bool.not_eq_true] at hm
        simp [hm]

theorem rowScore_eq_spec (terms : List String) (r : ProductRow)
    (hterms : ∀ t ∈ terms, noWildL t.data = true)
    (hcols : ∀ c ∈ searchCols r, c.isSome) :
    rowScore terms r = some (specMatchCount terms r : Int) := by
  induction terms with
  | nil => simp [rowScore, specMatchCount]
  | cons t ts ih =>
    rw [rowScore, scoreCols_eq_count t (hterms t (List.mem_cons_self _ _)) _ hcols,
      ih (fun u hu => hterms u (List.mem_cons_of_mem _ hu)), addNull]
    simp only [specMatchCount, List.map_cons, List.sum_cons, Option.some.injEq]
    push_cast
    ring

instance : IsTotal (ProductRow × Option Int) searchOrder := ⟨by
  intro a b
  obtain ⟨ra, sa⟩ := a
  obtain ⟨rb, sb⟩ := b
  cases sa <;> cases sb <;>
    simp [searchOrder, scoreLE, Bool.or_eq_true, Bool.and_eq_true,
      decide_eq_true_eq, beq_iff_eq] <;> omega⟩

instance : IsTrans (ProductRow × Option Int) searchOrder := ⟨by
  intro a b c hab hbc
  obtain ⟨ra, sa⟩ := a
  obtain ⟨rb, sb⟩ := b
  obtain ⟨rc, sc⟩ := c
  cases sa <;> cases sb <;> cases sc <;>
    simp_all [searchOrder, scoreLE, Bool.or_eq_true, Bool.and_eq_true,
      decide_eq_true_eq, beq_iff_eq] <;> omega⟩

theorem search_mem (table : List ProductRow) (terms : List String) (limit : Nat)
    (r : ProductRow) (s : Option Int)
    (hmem : (r, s) ∈ search_products_by_terms table terms limit) :
    s = rowScore (cleanTerms terms) r ∧ r ∈ table := by
  rw [search_products_by_terms] at hmem
  split at hmem
  · cases hmem
  · have h1 := List.mem_of_mem_take hmem
    have h2 := (List.perm_insertionSort searchOrder _).mem_iff.mp h1
    rw [List.mem_map] at h2
    obtain ⟨r', hr', heq⟩ := h2
    injection heq with e1 e2
    subst e1
    exact ⟨e2.symm, List.mem_of_mem_filter hr'⟩

theorem search_sorted (table : List ProductRow) (terms : List String) (limit : Nat) :
    List.Sorted searchOrder (search_products_by_terms table terms limit) := by
  rw [search_products_by_terms]
  split
  · exact List.sorted_nil
  · exact List.Pairwise.sublist (List.take_sublist _ _)
      (List.sorted_insertionSort searchOrder _)

def rowRedShirt : ProductRow :=
  ⟨2, some "x", some "red shirt", some "red-shirt", some "x", some "x", false⟩

def rowRedHat : ProductRow :=
  ⟨9, some "x", some "red hat", some "xx", some "xx", some "xx", false⟩

def rowNullName : ProductRow :=
  ⟨1, none, some "red", some "x", some "x", some "x", false⟩

def rowFullRed : ProductRow :=
  ⟨2, some "xx", some "red", some "xx", some "xx", some "xx", false⟩

def rowWildcard : ProductRow :=
  ⟨3, some "axb", some "xx", some "xx", some "xx", some "xx", false⟩

def rowEscape : ProductRow :=
  ⟨4, some "ab", some "xx", some "xx", some "xx", some "xx", false⟩

/-- C6 counterexample: (i) a row with a NULL searched field gets a NULL score
(not the substring-match count 1) and sorts above a fully-scored row, because
the SQL score expression is NULL-absorbing and DESC puts NULLs first; (ii) a
term containing the SQL wildcard `%` is scored as a LIKE pattern, not as a
literal substring: `a%b` scores 1 against `axb` though it is not a substring;
(iii) a term containing a backslash is scored with LIKE's default escape: the
term matching field `ab` scores 1 though it is not a substring of it. -/
theorem term_search_counterexample :
    search_products_by_terms [rowFullRed, rowNullName] ["red"] 50 =
      [(rowNullName, none), (rowFullRed, some 1)] ∧
    ((none : Option Int) = some 1 → False) ∧
    search_products_by_terms [rowWildcard] ["a%b"] 50 = [(rowWildcard, some 1)] ∧
    specMatchCount ["a%b"] rowWildcard = 0 ∧ ((1 : Int) = 0 → False) ∧
    search_products_by_terms [rowEscape] ["a\\b"] 50 = [(rowEscape, some 1)] ∧
    specMatchCount ["a\\b"] rowEscape = 0 :=
  ⟨by decide, by decide, by decide, by decide, by decide, by decide, by decide⟩

/-- C6 (amended): term search uses at most 12 terms, each at least 2
characters after trimming; for rows whose five searched fields are all
non-null and terms containing no SQL wildcard or escape character, the
attached score equals the count of (term × field) case-insensitive substring
matches; rows are sorted by score descending then id descending (null-scored
rows first); and the 2-terms × 2-fields scenario scores 4 and outranks a
single-field match. -/
theorem term_search_scoring (table : List ProductRow) (terms : List String)
    (limit : Nat) :
    ((cleanTerms terms).length ≤ 12 ∧ ∀ t ∈ cleanTerms terms, 2 ≤ t.length) ∧
    (∀ r s, (r, s) ∈ search_products_by_terms table terms limit →
      (∀ c ∈ searchCols r, c.isSome) →
      (∀ t ∈ cleanTerms terms, noWildL t.data = true) →
      s = some (specMatchCount (cleanTerms terms) r)) ∧
    List.Sorted searchOrder (search_products_by_terms table terms limit) ∧
    search_products_by_terms [rowRedShirt, rowRedHat] ["red", "shirt"] 50 =
      [(rowRedShirt, some 4), (rowRedHat, some 1)] := by
  refine ⟨⟨?_, ?_⟩, ?_, search_sorted table terms limit, by decide⟩
  · rw [cleanTerms]
    exact List.length_take_le _ _
  · intro t ht
    rw [cleanTerms] at ht
    have h1 := List.mem_of_mem_take ht
    rw [List.mem_filter] at h1
    exact of_decide_eq_true h1.2
  · intro r s hmem hcols hterms
    obtain ⟨hs, _⟩ := search_mem table terms limit r s hmem
    rw [hs]
    exact rowScore_eq_spec _ _ hterms hcols

/-- C6 witness: in the scenario table the returned score 4 of the double
match equals the spec's substring-match count. -/
theorem term_search_scoring_witness :
    (some 4 : Option Int) = some (specMatchCount (cleanTerms ["red", "shirt"]) rowRedShirt) :=
  (term_search_scoring [rowRedShirt, rowRedHat] ["red", "shirt"] 50).2.1 rowRedShirt (some 4)
    (by decide) (by decide) (by decide)
